import Mathlib

/-!
# Storefront interaction scripts

A shallow embedding of the three browser scripts of the store front end:

* `static/js/cart.js`: the coupon apply / remove handlers and the debounced
  live validation of the coupon input;
* `static/js/wishlist.js`: `getCookie` and `removeFromWishlist`;
* `static/admin/js/size-management.js`: `updateSizeTypeBadge` and the
  mutation observer that attaches it to inserted size selects.

Handlers are embedded as functions from what they read (form, page, the way
the request settled) to the ordered list of effects they perform.
-/

namespace Storefront

/-! ## JavaScript strings and values -/

/-- A JavaScript string, as its sequence of UTF-16 code units (naturals below `2^16`). -/
abbrev JSString := List Nat

/-- An ASCII string literal of the source, as code units. -/
def lit (s : String) : JSString := s.toList.map Char.toNat

/-- The code units removed by `String.prototype.trim`: ECMAScript WhiteSpace and LineTerminator. -/
def isWhiteSpace (u : Nat) : Bool :=
  u == 0x09 || u == 0x0A || u == 0x0B || u == 0x0C || u == 0x0D || u == 0x20 ||
  u == 0xA0 || u == 0x1680 || (0x2000 ≤ u && u ≤ 0x200A) || u == 0x2028 ||
  u == 0x2029 || u == 0x202F || u == 0x205F || u == 0x3000 || u == 0xFEFF

/-- Leading white space removed. -/
def trimStart (s : JSString) : JSString := s.dropWhile isWhiteSpace

/-- Trailing white space removed. -/
def trimEnd (s : JSString) : JSString := (s.reverse.dropWhile isWhiteSpace).reverse

/-- The method `String.prototype.trim`. -/
def trim (s : JSString) : JSString := trimEnd (trimStart s)

/-- A leading surrogate. -/
def isLeadSurrogate (u : Nat) : Bool := 0xD800 ≤ u && u ≤ 0xDBFF

/-- A trailing surrogate. -/
def isTrailSurrogate (u : Nat) : Bool := 0xDC00 ≤ u && u ≤ 0xDFFF

/-- ECMAScript `StringToCodePoints`: surrogate pairs are combined, anything else is kept. -/
def stringToCodePoints : JSString → List Nat
  | [] => []
  | [u] => [u]
  | u :: v :: rest =>
    if isLeadSurrogate u && isTrailSurrogate v then
      (0x10000 + (u - 0xD800) * 0x400 + (v - 0xDC00)) :: stringToCodePoints rest
    else u :: stringToCodePoints (v :: rest)

/-- ECMAScript `UTF16EncodeCodePoint`. -/
def utf16EncodeCodePoint (cp : Nat) : JSString :=
  if cp < 0x10000 then [cp]
  else [0xD800 + (cp - 0x10000) / 0x400, 0xDC00 + (cp - 0x10000) % 0x400]

/-- The method `String.prototype.toUpperCase`: every code point is replaced by its Unicode
upper-case mapping. The mapping table `upperMapping` (code point to code points) belongs to
the Unicode database and is a parameter. -/
def toUpperCase (upperMapping : Nat → List Nat) (s : JSString) : JSString :=
  ((stringToCodePoints s).flatMap upperMapping).flatMap utf16EncodeCodePoint

/-- The upper-case mapping restricted to ASCII letters, used for concrete evaluation. -/
def asciiUpperMapping (cp : Nat) : List Nat :=
  if 97 ≤ cp ∧ cp ≤ 122 then [cp - 32] else [cp]

/-- A JavaScript value as the scripts meet it: `undefined` or a value produced by `JSON.parse`.
Numbers are kept by their exact value. -/
inductive JSVal where
  | undefined
  | null
  | bool (b : Bool)
  | num (x : Rat)
  | str (s : JSString)
  | arr (items : List JSVal)
  | obj (props : List (String × JSVal))

/-- ECMAScript `ToBoolean`. -/
def truthy : JSVal → Bool
  | .undefined => false
  | .null => false
  | .bool b => b
  | .num x => x != 0
  | .str s => !s.isEmpty
  | .arr _ => true
  | .obj _ => true

/-- The operator `a || b`. -/
def jsOr (a b : JSVal) : JSVal := if truthy a then a else b

/-- Property read `v.key` for the keys the scripts use (`valid`, `message`, ...): `none` stands
for the `TypeError` raised on `null` and `undefined`; a missing property reads `undefined`. -/
def JSVal.get : JSVal → String → Option JSVal
  | .undefined, _ => none
  | .null, _ => none
  | .obj props, key => some ((props.lookup key).getD .undefined)
  | _, _ => some .undefined

/-- The values `null` and `undefined`. -/
def JSVal.isNullish : JSVal → Bool
  | .undefined => true
  | .null => true
  | _ => false

/-- Property read on a value already known not to be `null` or `undefined`. -/
def JSVal.prop (v : JSVal) (key : String) : JSVal := (v.get key).getD .undefined

/-! ## Form data -/

/-- The entry list of a `FormData` object (text entries). -/
abbrev FormData := List (String × JSString)

/-- The method `FormData.get`: the value of the first entry of that name, `null` if none. -/
def FormData.get (fd : FormData) (name : String) : Option JSString :=
  (fd.find? (fun e => e.1 == name)).map (fun e => e.2)

/-- The method `FormData.set`: the first entry of that name is replaced and the other ones
removed; without such an entry the new one is appended. -/
def FormData.set : FormData → String → JSString → FormData
  | [], name, value => [(name, value)]
  | (k, x) :: rest, name, value =>
    if k == name then (name, value) :: rest.filter (fun e => !(e.1 == name))
    else (k, x) :: FormData.set rest name value

/-! ## Requests, effects and settled fetches -/

/-- The arguments of a `fetch` call. -/
structure Request where
  url : JSString
  method : String
  body : Option FormData
  headers : List (String × JSVal)
  credentials : Option String

/-- What a handler does to the page and the network, in program order. -/
inductive Effect where
  | preventDefault
  | stopPropagation
  | confirm (message : JSString)
  | setDisabled (disabled : Bool)
  | setButtonHTML (html : JSString)
  | setMessageText (text : JSVal)
  | setMessageClass (className : JSString)
  | fetch (req : Request)
  | setOuterHTML (html : JSVal)
  | initializeCart
  | scrollTo (x y : Rat)
  | reload
  | navigate (href : JSVal)
  | consoleError (label : JSString)
  | alert (message : JSVal)

/-- The page is reloaded (`window.location.reload()`). -/
def Effect.isReload : Effect → Bool
  | .reload => true
  | _ => false

/-- The page navigates away (`window.location.href = ...`). -/
def Effect.isNavigate : Effect → Bool
  | .navigate _ => true
  | _ => false

/-- A request is issued. -/
def Effect.isFetch : Effect → Bool
  | .fetch _ => true
  | _ => false

/-- An alert box is shown. -/
def Effect.isAlert : Effect → Bool
  | .alert _ => true
  | _ => false

/-- The coupon message element is written. -/
def Effect.isMessage : Effect → Bool
  | .setMessageText _ => true
  | .setMessageClass _ => true
  | _ => false

/-- The order summary container is replaced. -/
def Effect.isReplace : Effect → Bool
  | .setOuterHTML _ => true
  | _ => false

/-- How the promise chain `fetch(...).then(r => r.json())` settles. -/
inductive FetchOutcome where
  | rejected
  | invalidJson
  | json (data : JSVal)

/-- What a `then` callback did, and whether it ended by throwing. -/
structure Completion where
  effects : List Effect
  threw : Bool

/-- The chain `.then(onData).catch(onError).finally(onFinally)` run on a settled fetch. -/
def settle (onData : JSVal → Completion) (onError onFinally : List Effect) :
    FetchOutcome → List Effect
  | .rejected => onError ++ onFinally
  | .invalidJson => onError ++ onFinally
  | .json data =>
    (onData data).effects ++ (if (onData data).threw then onError else []) ++ onFinally

/-! ## cart.js -/

/-- What the cart script reads from the document: whether the elements `coupon-message` and
`order-summary-container` exist, the `value` of the element matched by
`[name=csrfmiddlewaretoken]` when there is one, and `window.scrollY`. -/
structure Page where
  hasCouponMessage : Bool
  hasContainer : Bool
  csrfField : Option JSString
  scrollY : Rat

/-- The function `showCouponMessage(message, type)`. -/
def showCouponMessage (page : Page) (message : JSVal) (type : String) : List Effect :=
  if !page.hasCouponMessage then []
  else
    [ .setMessageText (jsOr message (.str [])),
      .setMessageClass
        (lit "mt-1 text-sm " ++
          (if type == "success" then lit "text-green-600" else lit "text-red-600")) ]

/-- The `then` callback of `validateCoupon`. -/
def validateCoupon.onData (page : Page) (data : JSVal) : Completion :=
  match data.get "valid" with
  | none => ⟨[], true⟩
  | some valid =>
    if truthy valid then
      ⟨showCouponMessage page
        (jsOr (data.prop "message") (.str (lit "Coupon looks valid"))) "success", false⟩
    else
      ⟨showCouponMessage page
        (jsOr (data.prop "message") (.str (lit "Invalid coupon code"))) "error", false⟩

/-- The function `validateCoupon(code)`. The builtin `encodeURIComponent` is a parameter; it
yields `none` where the builtin throws `URIError`, which ends the call before the request. -/
def validateCoupon (encodeURIComponent : JSString → Option JSString) (page : Page)
    (code : JSString) (outcome : FetchOutcome) : List Effect :=
  if code.isEmpty then []
  else
    match encodeURIComponent code with
    | none => []
    | some encoded =>
      [ .fetch
          { url := lit "/cart/coupon/validate/?code=" ++ encoded
            method := "GET"
            body := none
            headers := [("X-Requested-With", .str (lit "XMLHttpRequest"))]
            credentials := none } ] ++
      settle (validateCoupon.onData page) [] [] outcome

/-- The form that received the `submit` event: its entries, its `action`, and the `innerHTML` of
its submit button when it has one. -/
structure CouponForm where
  data : FormData
  action : JSString
  submitButton : Option JSString

/-- The `then` callback of `handleCouponSubmit`. -/
def handleCouponSubmit.onData (page : Page) (data : JSVal) : Completion :=
  match data.get "valid" with
  | none => ⟨[], true⟩
  | some valid =>
    if truthy valid then
      let shown :=
        showCouponMessage page
          (jsOr (data.prop "message") (.str (lit "Coupon applied successfully!"))) "success"
      if truthy (data.prop "order_summary_html") && page.hasContainer then
        ⟨shown ++ [.setOuterHTML (data.prop "order_summary_html"), .initializeCart,
          .scrollTo 0 page.scrollY], false⟩
      else
        ⟨shown ++ [.reload], false⟩
    else
      ⟨showCouponMessage page
        (jsOr (data.prop "message") (.str (lit "Invalid coupon code"))) "error", false⟩

/-- The entries posted by `handleCouponSubmit`: the coupon code is normalised when it is truthy. -/
def normalizeCouponCode (upperMapping : Nat → List Nat) (formData : FormData) : FormData :=
  match formData.get "coupon_code" with
  | some code =>
    if !code.isEmpty then formData.set "coupon_code" (toUpperCase upperMapping (trim code))
    else formData
  | none => formData

/-- The function `handleCouponSubmit(e)`, with `form = e.target`. Without a submit button the
read of `submitButton.innerHTML` throws and the handler ends before any request. -/
def handleCouponSubmit (upperMapping : Nat → List Nat) (page : Page) (form : CouponForm)
    (outcome : FetchOutcome) : List Effect :=
  [.preventDefault, .stopPropagation] ++
  match form.submitButton with
  | none => []
  | some originalButtonText =>
    let csrfToken : JSString :=
      match form.data.get "csrfmiddlewaretoken" with
      | some t => if !t.isEmpty then t else
          match page.csrfField with
          | some v => if !v.isEmpty then v else []
          | none => []
      | none =>
          match page.csrfField with
          | some v => if !v.isEmpty then v else []
          | none => []
    let formData := normalizeCouponCode upperMapping form.data
    [ .setDisabled true,
      .setButtonHTML (lit "<span class=\"spinner-border spinner-border-sm me-1\" role=\"status\" aria-hidden=\"true\"></span> Applying...") ] ++
    showCouponMessage page (.str []) "success" ++
    [ .fetch
        { url := form.action
          method := "POST"
          body := some formData
          headers := [("X-Requested-With", .str (lit "XMLHttpRequest")),
                      ("X-CSRFToken", .str csrfToken),
                      ("Accept", .str (lit "application/json"))]
          credentials := some "same-origin" } ] ++
    settle (handleCouponSubmit.onData page)
      ([.consoleError (lit "Apply coupon error:")] ++
        showCouponMessage page (.str (lit "An error occurred. Please try again.")) "error")
      [.setDisabled false, .setButtonHTML originalButtonText]
      outcome

/-- The `then` callback of `handleRemoveCoupon`. -/
def handleRemoveCoupon.onData (page : Page) (data : JSVal) : Completion :=
  match data.get "valid" with
  | none => ⟨[], true⟩
  | some valid =>
    if truthy valid && truthy (data.prop "order_summary_html") && page.hasContainer then
      ⟨[.setOuterHTML (data.prop "order_summary_html"), .initializeCart], false⟩
    else if truthy (data.prop "success") then
      ⟨[.reload], false⟩
    else if truthy (data.prop "redirect") then
      ⟨[.navigate (data.prop "redirect")], false⟩
    else
      ⟨[.reload], false⟩

/-- The function `handleRemoveCoupon(e)`, with `form = e.target`. Without a submit button the
read of `btn.innerHTML` throws and the handler ends before any request. -/
def handleRemoveCoupon (page : Page) (form : CouponForm) (outcome : FetchOutcome) :
    List Effect :=
  [.preventDefault] ++
  match form.submitButton with
  | none => []
  | some original =>
    [ .setDisabled true,
      .setButtonHTML (lit "<span class=\"spinner-border spinner-border-sm me-1\" role=\"status\" aria-hidden=\"true\"></span> Removing..."),
      .fetch
        { url := form.action
          method := "POST"
          body := none
          headers := [("X-Requested-With", .str (lit "XMLHttpRequest")),
                      ("X-CSRFToken", .str (page.csrfField.getD []))]
          credentials := some "same-origin" } ] ++
    settle (handleRemoveCoupon.onData page)
      ([.consoleError (lit "Remove coupon error:")] ++
        showCouponMessage page (.str (lit "Failed to remove coupon. Please try again.")) "error")
      [.setDisabled false, .setButtonHTML original]
      outcome

/-! ### The debounced input listener of `initializeCart` -/

/-- A timer set by `setTimeout(() => validateCoupon(code), 500)`. -/
structure Timer where
  id : Nat
  due : Nat
  code : JSString

/-- An `input` listener added by one call of `initializeCart`: the input element it was added
to, and the variable `debounceTimer` of its closure (`none` is `undefined`). -/
structure Listener where
  element : Nat
  debounceTimer : Option Nat

/-- What happened on the coupon inputs, newest first: an `input` event at a time (ms) on an
element with the value of the field, or a call of `validateCoupon` made by a timer at a time. -/
inductive LogEntry where
  | input (time element : Nat) (value : JSString)
  | validateCoupon (time : Nat) (code : JSString)

/-- The window as the coupon input sees it: the clock, the timers that are still active, the
listeners added so far (they are never removed), and the log. -/
structure InputState where
  now : Nat
  nextId : Nat
  timers : List Timer
  listeners : List Listener
  log : List LogEntry

/-- The window before `initializeCart` ran. -/
def InputState.init (now nextId : Nat) : InputState :=
  { now := now, nextId := nextId, timers := [], listeners := [], log := [] }

/-- The function `initializeCart()`, for the coupon input (lines 144 and 157-165):
`couponInput` is what `document.getElementById('coupon-code')` returns at that moment. Every
call adds a new anonymous listener with a new `debounceTimer`; nothing is removed. -/
def initializeCart (st : InputState) (couponInput : Option Nat) : InputState :=
  match couponInput with
  | none => st
  | some element =>
    { st with listeners := st.listeners ++ [{ element := element, debounceTimer := none }] }

/-- The function `clearTimeout(id)`: an unknown or `undefined` id is ignored. -/
def clearTimeout (id : Option Nat) (timers : List Timer) : List Timer :=
  match id with
  | none => timers
  | some i => timers.filter (fun t => t.id != i)

/-- The body of the `input` listener, run in the closure of one listener: the listener after
the run, the active timers and the next timer id. -/
def onCouponInput (now : Nat) (value : JSString) (listener : Listener) (timers : List Timer)
    (nextId : Nat) : Listener × List Timer × Nat :=
  let timers := clearTimeout listener.debounceTimer timers
  let code := trim value
  if code.length < 3 then (listener, timers, nextId)
  else
    ({ listener with debounceTimer := some nextId },
      { id := nextId, due := now + 500, code := code } :: timers,
      nextId + 1)

/-- An `input` event dispatched to an element: the listeners added to that element run in the
order in which they were added. -/
def dispatchInput (now element : Nat) (value : JSString) :
    List Listener → List Timer → Nat → List Listener × List Timer × Nat
  | [], timers, nextId => ([], timers, nextId)
  | l :: rest, timers, nextId =>
    if l.element == element then
      let r := onCouponInput now value l timers nextId
      let rs := dispatchInput now element value rest r.2.1 r.2.2
      (r.1 :: rs.1, rs.2.1, rs.2.2)
    else
      let rs := dispatchInput now element value rest timers nextId
      (l :: rs.1, rs.2.1, rs.2.2)

/-- An `input` event on an element, with the value the field has then. -/
def inputEvent (st : InputState) (element : Nat) (value : JSString) : InputState :=
  let r := dispatchInput st.now element value st.listeners st.timers st.nextId
  { st with
    listeners := r.1
    timers := r.2.1
    nextId := r.2.2
    log := LogEntry.input st.now element value :: st.log }

/-- The window runs the timer `id`: possible once the timer is active and due. The callback
calls `validateCoupon(code)`. -/
def fireTimer (st : InputState) (id : Nat) : Option InputState :=
  match st.timers.find? (fun t => t.id == id) with
  | none => none
  | some t =>
    if t.due ≤ st.now then
      some { st with
        timers := st.timers.filter (fun u => u.id != id)
        log := LogEntry.validateCoupon st.now t.code :: st.log }
    else none

/-- One move of the event loop. A call of `initializeCart` is made on `DOMContentLoaded` and
again by the coupon handlers after they replaced the order summary container. -/
inductive Action where
  | wait (ms : Nat)
  | initializeCart (couponInput : Option Nat)
  | input (element : Nat) (value : JSString)
  | fire (id : Nat)

/-- One move applied to a state; `none` when the window cannot make that move. -/
def step (st : InputState) : Action → Option InputState
  | .wait ms => some { st with now := st.now + ms }
  | .initializeCart couponInput => some (initializeCart st couponInput)
  | .input element value => some (inputEvent st element value)
  | .fire id => fireTimer st id

/-- A schedule of moves run from a state. -/
def run : InputState → List Action → Option InputState
  | st, [] => some st
  | st, a :: rest =>
    match step st a with
    | none => none
    | some next => run next rest

/-- An `input` event on the given element. -/
def LogEntry.isInputOn (element : Nat) : LogEntry → Bool
  | .input _ e _ => e == element
  | .validateCoupon _ _ => false

/-- The pair `due`, `code` is what the newest `input` event of the log on `element` schedules:
that event has a trimmed value `code` of length at least 3 and happened 500 ms before `due`. -/
def ScheduledBy (log : List LogEntry) (element due : Nat) (code : JSString) : Prop :=
  ∃ newer t0 value older, log = newer ++ LogEntry.input t0 element value :: older ∧
    (∀ e ∈ newer, e.isInputOn element = false) ∧ code = trim value ∧ 3 ≤ code.length ∧
    due = t0 + 500

/-- What holds of every state the window can reach: timer ids are below the next id; an active
timer is remembered by a listener and was scheduled by the newest `input` event on that
listener's element; each logged call of `validateCoupon` was scheduled by an `input` event on
an element, with no `input` event on that element between the two. -/
def DebounceInvariant (st : InputState) : Prop :=
  (∀ t ∈ st.timers, t.id < st.nextId) ∧
  (∀ t ∈ st.timers, ∃ l ∈ st.listeners, l.debounceTimer = some t.id ∧
    ScheduledBy st.log l.element t.due t.code) ∧
  (∀ newer older time code, st.log = newer ++ LogEntry.validateCoupon time code :: older →
    ∃ due element, ScheduledBy older element due code ∧ due ≤ time)


/-! ## wishlist.js -/

/-- Scanning loop of `split`: `skip` counts the code units of a matched separator still to be
passed over, `cur` is the piece being read. -/
def splitAux (sep : JSString) : Nat → JSString → JSString → List JSString
  | _, cur, [] => [cur]
  | skip + 1, cur, _ :: rest => splitAux sep skip cur rest
  | 0, cur, c :: rest =>
    if sep.isPrefixOf (c :: rest) then cur :: splitAux sep (sep.length - 1) [] rest
    else splitAux sep 0 (cur ++ [c]) rest

/-- The method `String.prototype.split(sep)` with a string separator. -/
def split (sep : JSString) (s : JSString) : List JSString :=
  if sep.isEmpty then s.map (fun c => [c]) else splitAux sep 0 [] s

/-- The function `getCookie(name)`, reading `document.cookie`; `none` is `undefined`. -/
def getCookie (cookie : JSString) (name : JSString) : Option JSString :=
  let value := lit "; " ++ cookie
  let parts := split (lit "; " ++ name ++ lit "=") value
  if parts.length == 2 then
    match parts.getLast? with
    | some last => (split (lit ";") last).head?
    | none => none
  else none

/-- What the wishlist script reads from the document: the value of the element matched by
`[name=csrfmiddlewaretoken]` when there is one, and `document.cookie`. -/
structure WishlistPage where
  csrfField : Option JSString
  cookie : JSString

/-- The token sent as `X-CSRFToken` by `removeFromWishlist`. -/
def wishlistCsrfToken (page : WishlistPage) : JSString :=
  match page.csrfField with
  | some value => value
  | none =>
    match getCookie page.cookie (lit "csrftoken") with
    | some v => if !v.isEmpty then v else []
    | none => []

/-- The `then` callback of `removeFromWishlist`. -/
def removeFromWishlist.onData (data : JSVal) : Completion :=
  match data.get "success" with
  | none => ⟨[], true⟩
  | some success =>
    if truthy success then ⟨[.reload], false⟩
    else ⟨[.alert (jsOr (data.prop "message") (.str (lit "Failed to remove item.")))], false⟩

/-- The function `removeFromWishlist(productId)`; `confirmed` is the answer of the `confirm`
dialog and `productId` the text the template literal puts into the address. -/
def removeFromWishlist (page : WishlistPage) (confirmed : Bool) (productId : JSString)
    (outcome : FetchOutcome) : List Effect :=
  [.confirm (lit "Remove this item from your wishlist?")] ++
  if !confirmed then []
  else
    [ .fetch
        { url := lit "/wishlist/remove/" ++ productId ++ lit "/"
          method := "POST"
          body := none
          headers := [("X-CSRFToken", .str (wishlistCsrfToken page)),
                      ("X-Requested-With", .str (lit "XMLHttpRequest"))]
          credentials := none } ] ++
    settle removeFromWishlist.onData
      [.consoleError (lit "Error:"), .alert (.str (lit "An error occurred. Please try again."))]
      [] outcome

/-- A cookie jar as the browser serialises it into `document.cookie`: `k1=v1; ...; kn=vn`. -/
def cookieString : List (JSString × JSString) → JSString
  | [] => []
  | [(k, v)] => k ++ lit "=" ++ v
  | (k, v) :: rest => k ++ lit "=" ++ v ++ lit "; " ++ cookieString rest

/-- A cookie as it appears in `document.cookie`: no `;` in its name or value, no `=` in its
name. -/
def wellFormedCookie (c : JSString × JSString) : Bool :=
  !c.1.contains 59 && !c.1.contains 61 && !c.2.contains 59

/-- The piece `; k=v` that a cookie contributes to `"; " + document.cookie`. -/
def cookieBlock (c : JSString × JSString) : JSString := 59 :: 32 :: (c.1 ++ 61 :: c.2)

/-! ## size-management.js -/

/-- The attributes and properties of an element that the script reads or writes.
`selectedIndex` is meaningful on `select` elements, `dataSizeType` is the `data-size-type`
attribute (`none` when absent), `display` is `style.display`. -/
structure Attrs where
  localName : String
  id : JSString
  classList : List JSString
  dataSizeType : Option JSString
  selectedIndex : Int
  display : JSString

/-- A node of the document tree. -/
inductive DomNode where
  | text (data : JSString)
  | element (attrs : Attrs) (children : List DomNode)

/-- Element nodes. -/
def DomNode.isElement : DomNode → Bool
  | .element _ _ => true
  | .text _ => false

/-- An element of the given local name. -/
def DomNode.hasLocalName (n : DomNode) (name : String) : Bool :=
  match n with
  | .element a _ => a.localName == name
  | .text _ => false

/-- The child nodes. -/
def DomNode.children : DomNode → List DomNode
  | .element _ cs => cs
  | .text _ => []

/-- The getter `style.display`. -/
def DomNode.display : DomNode → JSString
  | .element a _ => a.display
  | .text _ => []

mutual
/-- The getter `textContent`. -/
def DomNode.textContent : DomNode → JSString
  | .text d => d
  | .element _ cs => textContentList cs
/-- Text of a list of nodes, concatenated. -/
def textContentList : List DomNode → JSString
  | [] => []
  | c :: cs => c.textContent ++ textContentList cs
end

mutual
/-- The descendants of a node in document order, the node itself excluded. -/
def DomNode.descendants : DomNode → List DomNode
  | .text _ => []
  | .element _ cs => descendantsList cs
/-- The nodes of a list together with their descendants, in document order. -/
def descendantsList : List DomNode → List DomNode
  | [] => []
  | c :: cs => c :: (c.descendants ++ descendantsList cs)
end

/-- The selector `select[id$="-size"]`. -/
def matchesSizeSelect (n : DomNode) : Bool :=
  match n with
  | .element a _ => a.localName == "select" && (lit "-size").isSuffixOf a.id
  | .text _ => false

/-- The call `node.querySelectorAll('select[id$="-size"]')`: the matching descendants. -/
def querySelectorAll (n : DomNode) : List DomNode :=
  n.descendants.filter matchesSizeSelect

/-- The collection `select.options`: the `option` children and the `option` children of
`optgroup` children. -/
def selectOptions (select : DomNode) : List DomNode :=
  select.children.flatMap fun c =>
    if c.hasLocalName "option" then [c]
    else if c.hasLocalName "optgroup" then c.children.filter (fun o => o.hasLocalName "option")
    else []

/-- The read `selectElement.options[selectElement.selectedIndex]`; `none` is `undefined`. -/
def selectedOption (select : DomNode) : Option DomNode :=
  match select with
  | .element a _ =>
    if a.selectedIndex < 0 then none else (selectOptions select).get? a.selectedIndex.toNat
  | .text _ => none

/-- The call `getAttribute('data-size-type')`; `none` is `null`. -/
def DomNode.getSizeType : DomNode → Option JSString
  | .element a _ => a.dataSizeType
  | .text _ => none

/-- The property `nextElementSibling`, from the nodes that follow in the parent. -/
def nextElementSibling (after : List DomNode) : Option DomNode :=
  after.find? DomNode.isElement

/-- The test `badge.classList.contains('size-type-badge')`. -/
def isSizeTypeBadge : DomNode → Bool
  | .element a _ => a.classList.contains (lit "size-type-badge")
  | .text _ => false

/-- The method `charAt(0)`. -/
def charAt0 (s : JSString) : JSString := s.take 1

/-- The text given to the badge: `sizeType.charAt(0).toUpperCase() + sizeType.slice(1)`. -/
def capitalize (upperMapping : Nat → List Nat) (sizeType : JSString) : JSString :=
  toUpperCase upperMapping (charAt0 sizeType) ++ sizeType.drop 1

/-- The setter `textContent` on an element: the children are replaced by one text node, or by
nothing for the empty string. -/
def setTextContent (n : DomNode) (s : JSString) : DomNode :=
  match n with
  | .element a _ => .element a (if s.isEmpty then [] else [.text s])
  | .text _ => .text s

/-- The setter `style.display`. -/
def setDisplay (n : DomNode) (d : JSString) : DomNode :=
  match n with
  | .element a cs => .element { a with display := d } cs
  | .text t => .text t

/-- The last statement of `updateSizeTypeBadge`: "Update badge content and style". -/
def updateBadge (upperMapping : Nat → List Nat) (sizeType : Option JSString) (badge : DomNode) :
    DomNode :=
  match sizeType with
  | some s =>
    if !s.isEmpty then
      setDisplay (setTextContent badge (capitalize upperMapping s)) (lit "inline-block")
    else setDisplay badge (lit "none")
  | none => setDisplay badge (lit "none")

/-- The element made by `document.createElement('span')` with `className` set. -/
def newBadge : DomNode :=
  .element
    { localName := "span", id := [], classList := [lit "size-type-badge"], dataSizeType := none,
      selectedIndex := -1, display := [] } []

/-- The first element of a list of siblings replaced by its image. -/
def mapFirstElement (f : DomNode → DomNode) : List DomNode → List DomNode
  | [] => []
  | n :: rest => if n.isElement then f n :: rest else n :: mapFirstElement f rest

/-- The function `updateSizeTypeBadge(selectElement)`. The select comes with `after`, the
nodes that follow it in its parent; the result is that list once the function returns, and
`none` when it throws (`getAttribute` read on `undefined`: no option is selected). -/
def updateSizeTypeBadge (upperMapping : Nat → List Nat) (select : DomNode)
    (after : List DomNode) : Option (List DomNode) :=
  match selectedOption select with
  | none => none
  | some option =>
    let sizeType := option.getSizeType
    match nextElementSibling after with
    | some badge =>
      if !isSizeTypeBadge badge then some (updateBadge upperMapping sizeType newBadge :: after)
      else some (mapFirstElement (updateBadge upperMapping sizeType) after)
    | none => some (updateBadge upperMapping sizeType newBadge :: after)

/-- What the script does to a size select. -/
inductive Attach where
  | updateSizeTypeBadge (select : DomNode)
  | addChangeListener (select : DomNode)
  | observe

/-- The actions done so far and whether an exception ended them. -/
structure Run where
  done : List Attach
  threw : Bool

/-- The method `forEach`: the callback runs on each item in order, an exception ends the loop. -/
def forEach {α : Type} (f : α → Run) : List α → Run
  | [] => ⟨[], false⟩
  | x :: rest =>
    if (f x).threw then f x
    else ⟨(f x).done ++ (forEach f rest).done, (forEach f rest).threw⟩

/-- The body run on each size select, at load and in the observer: the badge is updated (which
throws when no option is selected), then a `change` listener is added. -/
def attachBadge (select : DomNode) : Run :=
  match selectedOption select with
  | none => ⟨[], true⟩
  | some _ => ⟨[.updateSizeTypeBadge select, .addChangeListener select], false⟩

/-- A mutation record, by its `addedNodes`. -/
structure MutationRecord where
  addedNodes : List DomNode

/-- The callback given to `MutationObserver`. -/
def observerCallback (mutations : List MutationRecord) : Run :=
  forEach (fun mutation =>
    if mutation.addedNodes.length != 0 then
      forEach (fun node =>
        if node.isElement then forEach attachBadge (querySelectorAll node)
        else ⟨[], false⟩) mutation.addedNodes
    else ⟨[], false⟩) mutations

/-- The `DOMContentLoaded` listener: the selects of the document (the descendants of its root
`body` included), then the observer is started. -/
def onContentLoaded (documentChildren : List DomNode) : Run :=
  let first := forEach attachBadge ((descendantsList documentChildren).filter matchesSizeSelect)
  if first.threw then first else ⟨first.done ++ [.observe], false⟩

/-- The script from load on. The `DOMContentLoaded` listener runs; when it reached
`observer.observe`, the observer callback runs once for each batch of mutation records that the
window delivers afterwards; when it threw before that line, no observer exists and the batches
are delivered to nobody. The runs are listed in order. -/
def sizeManagement (documentChildren : List DomNode) (batches : List (List MutationRecord)) :
    List Run :=
  if (onContentLoaded documentChildren).threw then [onContentLoaded documentChildren]
  else onContentLoaded documentChildren :: batches.map observerCallback

/-- The node `d` lies strictly inside the node `n`. -/
inductive Contains : DomNode → DomNode → Prop where
  | child (a : Attrs) (cs : List DomNode) (c : DomNode) : c ∈ cs → Contains (.element a cs) c
  | deeper (a : Attrs) (cs : List DomNode) (c d : DomNode) :
      c ∈ cs → Contains c d → Contains (.element a cs) d

/-! ## Theorems -/

/-! ### Strings, values and effect traces -/

/-- Reading back the name just set gives the value set. -/
theorem FormData.get_set (fd : FormData) (name : String) (value : JSString) :
    FormData.get (FormData.set fd name value) name = some value := by
  induction fd with
  | nil => simp [FormData.set, FormData.get]
  | cons e rest ih =>
    obtain ⟨k, x⟩ := e
    by_cases h : (k == name) = true
    · simp [FormData.set, FormData.get, h]
    · simp only [FormData.set, h]
      simp only [FormData.get] at ih ⊢
      simpa [List.find?, h] using ih

/-- Upper-casing the empty string gives the empty string. -/
theorem toUpperCase_nil (m : Nat → List Nat) : toUpperCase m [] = [] := by
  simp [toUpperCase, stringToCodePoints]

/-- Trimming the empty string gives the empty string. -/
theorem trim_nil : trim [] = [] := by
  simp [trim, trimEnd, trimStart]

/-- A value with a truthy property is neither `null` nor `undefined`: its property reads succeed. -/
theorem JSVal.get_of_truthy_prop (data : JSVal) (key other : String)
    (h : truthy (data.prop key) = true) : data.get other = some (data.prop other) := by
  cases data <;> simp_all [JSVal.prop, JSVal.get, truthy]

/-- Property reads succeed on every value but `null` and `undefined`. -/
theorem JSVal.get_of_not_nullish (data : JSVal) (key : String) (h : data.isNullish = false) :
    data.get key = some (data.prop key) := by
  cases data <;> simp_all [JSVal.prop, JSVal.get, JSVal.isNullish]

/-- The effects of `showCouponMessage` are writes to the message element and nothing else. -/
theorem filter_showCouponMessage (p : Effect → Bool) (page : Page) (m : JSVal) (t : String)
    (hp : ∀ e, e.isMessage = true → p e = false) :
    (showCouponMessage page m t).filter p = [] := by
  unfold showCouponMessage
  split
  · rfl
  · simp [List.filter, hp _ (rfl : (Effect.setMessageText _).isMessage = true),
      hp _ (rfl : (Effect.setMessageClass _).isMessage = true)]

/-- Every effect of `showCouponMessage` is a write to the message element. -/
theorem filter_isMessage_showCouponMessage (page : Page) (m : JSVal) (t : String) :
    (showCouponMessage page m t).filter Effect.isMessage = showCouponMessage page m t := by
  unfold showCouponMessage
  split <;> simp [Effect.isMessage]

/-- An error message shown on a page that has the message element. -/
theorem showCouponMessage_error (page : Page) (s : JSString) (hm : page.hasCouponMessage = true)
    (hs : s.isEmpty = false) :
    showCouponMessage page (.str s) "error"
      = [.setMessageText (.str s), .setMessageClass (lit "mt-1 text-sm " ++ lit "text-red-600")] := by
  simp [showCouponMessage, hm, jsOr, truthy, hs]

/-- The message cleared on a page that has the message element. -/
theorem showCouponMessage_clear (page : Page) (hm : page.hasCouponMessage = true) :
    showCouponMessage page (.str []) "success"
      = [.setMessageText (.str []), .setMessageClass (lit "mt-1 text-sm " ++ lit "text-green-600")] := by
  simp [showCouponMessage, hm, jsOr, truthy]

/-- A kind of effect absent from the three callbacks is absent from the settled chain. -/
theorem filter_settle (p : Effect → Bool) (onData : JSVal → Completion)
    (onError onFinally : List Effect) (outcome : FetchOutcome)
    (hd : ∀ d, (onData d).effects.filter p = []) (he : onError.filter p = [])
    (hf : onFinally.filter p = []) :
    (settle onData onError onFinally outcome).filter p = [] := by
  cases outcome with
  | rejected => simp [settle, he, hf]
  | invalidJson => simp [settle, he, hf]
  | json data =>
    simp only [settle, List.filter_append, hd, hf, List.append_nil, List.nil_append]
    split
    · exact he
    · rfl

/-- A write to the message element is not a request. -/
theorem isFetch_of_isMessage (e : Effect) (h : e.isMessage = true) : e.isFetch = false := by
  cases e <;> simp_all [Effect.isMessage, Effect.isFetch]

/-- A write to the message element is not a reload. -/
theorem isReload_of_isMessage (e : Effect) (h : e.isMessage = true) : e.isReload = false := by
  cases e <;> simp_all [Effect.isMessage, Effect.isReload]

/-- A write to the message element is not a navigation. -/
theorem isNavigate_of_isMessage (e : Effect) (h : e.isMessage = true) : e.isNavigate = false := by
  cases e <;> simp_all [Effect.isMessage, Effect.isNavigate]

/-- A write to the message element is not a replacement of the container. -/
theorem isReplace_of_isMessage (e : Effect) (h : e.isMessage = true) : e.isReplace = false := by
  cases e <;> simp_all [Effect.isMessage, Effect.isReplace]

/-- A write to the message element is not an alert. -/
theorem isAlert_of_isMessage (e : Effect) (h : e.isMessage = true) : e.isAlert = false := by
  cases e <;> simp_all [Effect.isMessage, Effect.isAlert]

/-! ### cart.js: applying and removing a coupon -/

/-- The `then` callback of `handleCouponSubmit` issues no request. -/
theorem handleCouponSubmit_onData_filter_isFetch (page : Page) (data : JSVal) :
    (handleCouponSubmit.onData page data).effects.filter Effect.isFetch = [] := by
  unfold handleCouponSubmit.onData
  split
  · rfl
  · split
    · split <;>
        simp [List.filter_append, filter_showCouponMessage _ _ _ _ isFetch_of_isMessage,
          Effect.isFetch]
    · simp [filter_showCouponMessage _ _ _ _ isFetch_of_isMessage]

/-- With a submit button, `handleCouponSubmit` issues exactly one request: a `POST` to the form action carrying the normalised entries. -/
theorem handleCouponSubmit_filter_isFetch (upperMapping : Nat → List Nat) (page : Page)
    (form : CouponForm) (outcome : FetchOutcome) (b : JSString)
    (hb : form.submitButton = some b) :
    ∃ req, (handleCouponSubmit upperMapping page form outcome).filter Effect.isFetch = [.fetch req]
      ∧ req.url = form.action ∧ req.method = "POST"
      ∧ req.body = some (normalizeCouponCode upperMapping form.data) := by
  have hs : ∀ (onError onFinally : List Effect), onError.filter Effect.isFetch = [] →
      onFinally.filter Effect.isFetch = [] →
      (settle (handleCouponSubmit.onData page) onError onFinally outcome).filter Effect.isFetch = [] :=
    fun onError onFinally he hf =>
      filter_settle _ _ _ _ _ (handleCouponSubmit_onData_filter_isFetch page) he hf
  unfold handleCouponSubmit
  simp only [hb, List.filter_append]
  rw [hs]
  · simp only [filter_showCouponMessage _ _ _ _ isFetch_of_isMessage]
    simp only [List.filter, Effect.isFetch, List.append_nil, List.nil_append]
    exact ⟨_, rfl, rfl, rfl, rfl⟩
  · simp [List.filter_append, filter_showCouponMessage _ _ _ _ isFetch_of_isMessage,
      Effect.isFetch, List.filter]
  · simp [Effect.isFetch, List.filter]

/-- The normalised entries hold the coupon code trimmed and upper-cased, for every entered value. -/
theorem normalizeCouponCode_get (upperMapping : Nat → List Nat) (fd : FormData) (s : JSString)
    (hs : fd.get "coupon_code" = some s) :
    (normalizeCouponCode upperMapping fd).get "coupon_code"
      = some (toUpperCase upperMapping (trim s)) := by
  unfold normalizeCouponCode
  rw [hs]
  cases s with
  | nil => simp [hs, toUpperCase_nil, trim_nil]
  | cons c cs => simp [FormData.get_set]

/-- Claim C1. When the submitted form has a `coupon_code` entry with value `s` (any string, the
empty and the blank ones included), every request issued by `handleCouponSubmit` is a `POST`
whose body holds `coupon_code` equal to `s` trimmed and then upper-cased; with a submit button
in the form such a request is issued. -/
theorem coupon_code_posted_normalized (upperMapping : Nat → List Nat) (page : Page)
    (form : CouponForm) (outcome : FetchOutcome) (s : JSString)
    (hs : form.data.get "coupon_code" = some s) :
    (form.submitButton ≠ none →
      ∃ req, Effect.fetch req ∈ handleCouponSubmit upperMapping page form outcome) ∧
    ∀ req, Effect.fetch req ∈ handleCouponSubmit upperMapping page form outcome →
      req.method = "POST" ∧
      ∃ body, req.body = some body ∧
        body.get "coupon_code" = some (toUpperCase upperMapping (trim s)) := by
  cases hbtn : form.submitButton with
  | none =>
    refine ⟨fun h => absurd rfl h, ?_⟩
    intro req hreq
    simp [handleCouponSubmit, hbtn] at hreq
  | some b =>
    obtain ⟨r, hr, -, hmethod, hbody⟩ :=
      handleCouponSubmit_filter_isFetch upperMapping page form outcome b hbtn
    refine ⟨fun _ => ⟨r, ?_⟩, ?_⟩
    · have : Effect.fetch r ∈ (handleCouponSubmit upperMapping page form outcome).filter
          Effect.isFetch := by rw [hr]; exact List.mem_singleton.mpr rfl
      exact (List.mem_filter.mp this).1
    · intro req hreq
      have hmem : Effect.fetch req ∈ (handleCouponSubmit upperMapping page form outcome).filter
          Effect.isFetch := List.mem_filter.mpr ⟨hreq, rfl⟩
      rw [hr, List.mem_singleton] at hmem
      injection hmem with hreq
      subst hreq
      exact ⟨hmethod, _, hbody, normalizeCouponCode_get upperMapping form.data s hs⟩

/-- Claim C1 at the form entry ` save10 `: the request is issued and posts `SAVE10`. -/
theorem coupon_code_posted_normalized_witness :
    (∃ req, Effect.fetch req ∈ handleCouponSubmit asciiUpperMapping ⟨true, true, none, 0⟩
        ⟨[("coupon_code", lit " save10 ")], lit "/cart/coupon/apply/", some (lit "Apply")⟩
        .rejected) ∧
    ∀ req, Effect.fetch req ∈ handleCouponSubmit asciiUpperMapping ⟨true, true, none, 0⟩
        ⟨[("coupon_code", lit " save10 ")], lit "/cart/coupon/apply/", some (lit "Apply")⟩
        .rejected →
      req.method = "POST" ∧
      ∃ body, req.body = some body ∧ body.get "coupon_code" = some (lit "SAVE10") :=
  have h := coupon_code_posted_normalized asciiUpperMapping ⟨true, true, none, 0⟩
    ⟨[("coupon_code", lit " save10 ")], lit "/cart/coupon/apply/", some (lit "Apply")⟩
    .rejected (lit " save10 ") (by rfl)
  ⟨h.1 (by simp), h.2⟩

/-- Claim C2. For a JSON response with `valid` truthy and `order_summary_html` truthy, and with the
element `order-summary-container` present, `handleCouponSubmit` and `handleRemoveCoupon` each
replace that container once, with the returned HTML, and neither reload the page nor
navigate. -/
theorem partial_html_replaces_container (upperMapping : Nat → List Nat) (page : Page)
    (form removeForm : CouponForm) (data : JSVal) (b rb : JSString)
    (hb : form.submitButton = some b) (hrb : removeForm.submitButton = some rb)
    (hvalid : truthy (data.prop "valid") = true)
    (hhtml : truthy (data.prop "order_summary_html") = true)
    (hc : page.hasContainer = true) :
    ((handleCouponSubmit upperMapping page form (.json data)).filter Effect.isReplace
        = [.setOuterHTML (data.prop "order_summary_html")]
      ∧ (handleCouponSubmit upperMapping page form (.json data)).filter Effect.isReload = []
      ∧ (handleCouponSubmit upperMapping page form (.json data)).filter Effect.isNavigate = [])
    ∧ ((handleRemoveCoupon page removeForm (.json data)).filter Effect.isReplace
        = [.setOuterHTML (data.prop "order_summary_html")]
      ∧ (handleRemoveCoupon page removeForm (.json data)).filter Effect.isReload = []
      ∧ (handleRemoveCoupon page removeForm (.json data)).filter Effect.isNavigate = []) := by
  have hget := JSVal.get_of_truthy_prop data "valid" "valid" hvalid
  refine ⟨⟨?_, ?_, ?_⟩, ?_, ?_, ?_⟩ <;>
    simp [handleCouponSubmit, handleRemoveCoupon, handleCouponSubmit.onData,
      handleRemoveCoupon.onData, settle, hb, hrb, hget, hvalid, hhtml, hc, List.filter_append,
      filter_showCouponMessage _ _ _ _ isReload_of_isMessage,
      filter_showCouponMessage _ _ _ _ isNavigate_of_isMessage,
      filter_showCouponMessage _ _ _ _ isReplace_of_isMessage,
      Effect.isReplace, Effect.isReload, Effect.isNavigate, List.filter]

/-- Claim C2 at the response `{valid: true, order_summary_html: "<div>ok</div>"}`. -/
theorem partial_html_replaces_container_witness :
    (handleCouponSubmit asciiUpperMapping ⟨true, true, none, 0⟩
        ⟨[("coupon_code", lit "save10")], lit "/cart/coupon/apply/", some (lit "Apply")⟩
        (.json (.obj [("valid", .bool true), ("order_summary_html", .str (lit "<div>ok</div>"))]))).filter
        Effect.isReload = [] ∧
    (handleRemoveCoupon ⟨true, true, none, 0⟩
        ⟨[], lit "/cart/coupon/remove/", some (lit "Remove")⟩
        (.json (.obj [("valid", .bool true), ("order_summary_html", .str (lit "<div>ok</div>"))]))).filter
        Effect.isReplace = [.setOuterHTML (.str (lit "<div>ok</div>"))] :=
  have h := partial_html_replaces_container asciiUpperMapping ⟨true, true, none, 0⟩
    ⟨[("coupon_code", lit "save10")], lit "/cart/coupon/apply/", some (lit "Apply")⟩
    ⟨[], lit "/cart/coupon/remove/", some (lit "Remove")⟩
    (.obj [("valid", .bool true), ("order_summary_html", .str (lit "<div>ok</div>"))])
    (lit "Apply") (lit "Remove") rfl rfl (by decide) (by decide) rfl
  ⟨h.1.2.1, h.2.1⟩

/-- Claim C3 fails as stated: on the response `{"redirect": "/cart/"}`, which has no
`order_summary_html`, `handleRemoveCoupon` does not reload the page; it navigates to the
redirect address. -/
theorem remove_without_html_may_navigate :
    truthy ((JSVal.obj [("redirect", .str (lit "/cart/"))]).prop "order_summary_html") = false ∧
    (handleRemoveCoupon ⟨true, true, none, 0⟩
        ⟨[], lit "/cart/coupon/remove/", some (lit "Remove")⟩
        (.json (.obj [("redirect", .str (lit "/cart/"))]))).filter Effect.isReload = [] ∧
    (handleRemoveCoupon ⟨true, true, none, 0⟩
        ⟨[], lit "/cart/coupon/remove/", some (lit "Remove")⟩
        (.json (.obj [("redirect", .str (lit "/cart/"))]))).filter Effect.isNavigate
      = [.navigate (.str (lit "/cart/"))] :=
  ⟨rfl, rfl, rfl⟩

/-- Claim C3, amended. For a response other than `null` whose `order_summary_html` is absent or
falsy: `handleCouponSubmit` with `valid` truthy reloads the page; `handleRemoveCoupon` reloads
the page when `success` is truthy or `redirect` is absent or falsy, and when `success` is falsy
and `redirect` truthy it navigates to `redirect` without reloading. -/
theorem missing_html_reloads_or_redirects (upperMapping : Nat → List Nat) (page : Page)
    (form removeForm : CouponForm) (data : JSVal) (b rb : JSString)
    (hb : form.submitButton = some b) (hrb : removeForm.submitButton = some rb)
    (hdata : data.isNullish = false)
    (hhtml : truthy (data.prop "order_summary_html") = false) :
    (truthy (data.prop "valid") = true →
      (handleCouponSubmit upperMapping page form (.json data)).filter Effect.isReload = [.reload]
      ∧ (handleCouponSubmit upperMapping page form (.json data)).filter Effect.isNavigate = []) ∧
    (truthy (data.prop "success") = true ∨ truthy (data.prop "redirect") = false →
      (handleRemoveCoupon page removeForm (.json data)).filter Effect.isReload = [.reload]
      ∧ (handleRemoveCoupon page removeForm (.json data)).filter Effect.isNavigate = []) ∧
    (truthy (data.prop "success") = false ∧ truthy (data.prop "redirect") = true →
      (handleRemoveCoupon page removeForm (.json data)).filter Effect.isReload = []
      ∧ (handleRemoveCoupon page removeForm (.json data)).filter Effect.isNavigate
          = [.navigate (data.prop "redirect")]) := by
  have hget := JSVal.get_of_not_nullish data "valid" hdata
  refine ⟨?_, ?_, ?_⟩
  · intro hvalid
    constructor <;>
    simp [handleCouponSubmit, handleCouponSubmit.onData, settle, hb, hget, hvalid, hhtml,
      List.filter_append,
      filter_showCouponMessage _ _ _ _ isReload_of_isMessage,
      filter_showCouponMessage _ _ _ _ isNavigate_of_isMessage,
      Effect.isReload, Effect.isNavigate, List.filter]
  · rintro (hs | hr)
    · constructor <;>
      simp [handleRemoveCoupon, handleRemoveCoupon.onData, settle, hrb, hget, hhtml, hs,
        List.filter_append, Effect.isReload, Effect.isNavigate, List.filter]
    · constructor <;>
      cases hs : truthy (data.prop "success") <;>
      simp [handleRemoveCoupon, handleRemoveCoupon.onData, settle, hrb, hget, hhtml, hs, hr,
        List.filter_append, Effect.isReload, Effect.isNavigate, List.filter]
  · rintro ⟨hs, hr⟩
    constructor <;>
    simp [handleRemoveCoupon, handleRemoveCoupon.onData, settle, hrb, hget, hhtml, hs, hr,
      List.filter_append, Effect.isReload, Effect.isNavigate, List.filter]

/-- Claim C3, amended, at the response `{success: true}` of the remove request. -/
theorem missing_html_reloads_or_redirects_witness :
    (handleRemoveCoupon ⟨true, true, none, 0⟩
        ⟨[], lit "/cart/coupon/remove/", some (lit "Remove")⟩
        (.json (.obj [("success", .bool true)]))).filter Effect.isReload = [.reload] :=
  ((missing_html_reloads_or_redirects asciiUpperMapping ⟨true, true, none, 0⟩
    ⟨[("coupon_code", lit "save10")], lit "/cart/coupon/apply/", some (lit "Apply")⟩
    ⟨[], lit "/cart/coupon/remove/", some (lit "Remove")⟩
    (.obj [("success", .bool true)])
    (lit "Apply") (lit "Remove") rfl rfl rfl (by decide)).2.1 (Or.inl (by decide))).1

/-! ### cart.js: the debounced live validation -/

/-- A newer log entry that is no `input` event on the element leaves the schedule as it is. -/
theorem scheduledBy_cons (log : List LogEntry) (e : LogEntry) (element due : Nat)
    (code : JSString) (he : e.isInputOn element = false) (h : ScheduledBy log element due code) :
    ScheduledBy (e :: log) element due code := by
  obtain ⟨newer, t0, value, older, hlog, hnewer, hrest⟩ := h
  refine ⟨e :: newer, t0, value, older, by simp [hlog], ?_, hrest⟩
  intro x hx
  rcases List.mem_cons.mp hx with rfl | hx
  · exact he
  · exact hnewer x hx

/-- A timer left by `clearTimeout(id)` was active before and has another id. -/
theorem mem_clearTimeout {id : Option Nat} {timers : List Timer} {t : Timer}
    (h : t ∈ clearTimeout id timers) : t ∈ timers ∧ id ≠ some t.id := by
  cases id with
  | none => exact ⟨h, by simp⟩
  | some i =>
    simp only [clearTimeout, List.mem_filter, bne_iff_ne, ne_eq] at h
    exact ⟨h.1, fun hi => h.2 (Option.some.inj hi).symm⟩

/-- Without listeners an `input` event changes nothing. -/
theorem dispatchInput_nil (now element : Nat) (value : JSString) (timers : List Timer)
    (nextId : Nat) : dispatchInput now element value [] timers nextId = ([], timers, nextId) :=
  rfl

/-- A listener of another element is passed over. -/
theorem dispatchInput_cons_other (now element : Nat) (value : JSString) (l : Listener)
    (rest : List Listener) (timers : List Timer) (nextId : Nat)
    (h : (l.element == element) = false) :
    dispatchInput now element value (l :: rest) timers nextId
      = (l :: (dispatchInput now element value rest timers nextId).1,
          (dispatchInput now element value rest timers nextId).2.1,
          (dispatchInput now element value rest timers nextId).2.2) := by
  simp [dispatchInput, h]

/-- A listener of the element, on a trimmed value shorter than 3: its timer is cleared. -/
theorem dispatchInput_cons_short (now element : Nat) (value : JSString) (l : Listener)
    (rest : List Listener) (timers : List Timer) (nextId : Nat)
    (h : (l.element == element) = true) (hshort : (trim value).length < 3) :
    dispatchInput now element value (l :: rest) timers nextId
      = (l :: (dispatchInput now element value rest
            (clearTimeout l.debounceTimer timers) nextId).1,
          (dispatchInput now element value rest (clearTimeout l.debounceTimer timers) nextId).2.1,
          (dispatchInput now element value rest
            (clearTimeout l.debounceTimer timers) nextId).2.2) := by
  simp [dispatchInput, h, onCouponInput, hshort]

/-- A listener of the element, on a trimmed value of length at least 3: its timer is cleared and a new one set. -/
theorem dispatchInput_cons_long (now element : Nat) (value : JSString) (l : Listener)
    (rest : List Listener) (timers : List Timer) (nextId : Nat)
    (h : (l.element == element) = true) (hlong : ¬ (trim value).length < 3) :
    dispatchInput now element value (l :: rest) timers nextId
      = ({ l with debounceTimer := some nextId } ::
            (dispatchInput now element value rest
              ({ id := nextId, due := now + 500, code := trim value } ::
                clearTimeout l.debounceTimer timers) (nextId + 1)).1,
          (dispatchInput now element value rest
              ({ id := nextId, due := now + 500, code := trim value } ::
                clearTimeout l.debounceTimer timers) (nextId + 1)).2.1,
          (dispatchInput now element value rest
              ({ id := nextId, due := now + 500, code := trim value } ::
                clearTimeout l.debounceTimer timers) (nextId + 1)).2.2) := by
  simp [dispatchInput, h, onCouponInput, hlong]

/-- Dispatching an `input` event keeps the timer ids below the next id. -/
theorem dispatchInput_ids (now element : Nat) (value : JSString) (listeners : List Listener)
    (timers : List Timer) (nextId : Nat) (h : ∀ t ∈ timers, t.id < nextId) :
    ∀ t ∈ (dispatchInput now element value listeners timers nextId).2.1,
      t.id < (dispatchInput now element value listeners timers nextId).2.2 := by
  induction listeners generalizing timers nextId with
  | nil => simpa [dispatchInput_nil] using h
  | cons l rest ih =>
    by_cases hel : (l.element == element) = true
    · by_cases hshort : (trim value).length < 3
      · rw [dispatchInput_cons_short _ _ _ _ _ _ _ hel hshort]
        exact ih _ _ (fun t ht => h t (mem_clearTimeout ht).1)
      · rw [dispatchInput_cons_long _ _ _ _ _ _ _ hel hshort]
        refine ih _ _ ?_
        intro t ht
        rcases List.mem_cons.mp ht with rfl | ht
        · exact Nat.lt_succ_self _
        · exact Nat.lt_succ_of_lt (h t (mem_clearTimeout ht).1)
    · simp only [Bool.not_eq_true] at hel
      rw [dispatchInput_cons_other _ _ _ _ _ _ _ hel]
      exact ih _ _ h

/-- Dispatching an `input` event leaves only timers that a listener remembers and that the newest `input` event on the element of that listener scheduled. -/
theorem dispatchInput_owned (now element : Nat) (value : JSString) (log : List LogEntry)
    (todo done : List Listener) (timers : List Timer) (nextId : Nat)
    (h : ∀ t ∈ timers,
      (∃ l ∈ done, l.debounceTimer = some t.id ∧
        ScheduledBy (LogEntry.input now element value :: log) l.element t.due t.code) ∨
      (∃ l ∈ todo, l.debounceTimer = some t.id ∧ ScheduledBy log l.element t.due t.code)) :
    ∀ t ∈ (dispatchInput now element value todo timers nextId).2.1,
      ∃ l ∈ done ++ (dispatchInput now element value todo timers nextId).1,
        l.debounceTimer = some t.id ∧
        ScheduledBy (LogEntry.input now element value :: log) l.element t.due t.code := by
  induction todo generalizing done timers nextId with
  | nil =>
    intro t ht
    rcases h t ht with ⟨l, hl, hown, hs⟩ | ⟨l, hl, -, -⟩
    · exact ⟨l, by simp [dispatchInput_nil, hl], hown, hs⟩
    · simp at hl
  | cons l rest ih =>
    by_cases hel : (l.element == element) = true
    · by_cases hshort : (trim value).length < 3
      · rw [dispatchInput_cons_short _ _ _ _ _ _ _ hel hshort]
        intro t ht
        have key := ih (done ++ [l]) (clearTimeout l.debounceTimer timers) nextId (by
          intro u hu
          obtain ⟨humem, hune⟩ := mem_clearTimeout hu
          rcases h u humem with ⟨m, hm, hown, hs⟩ | ⟨m, hm, hown, hs⟩
          · exact Or.inl ⟨m, by simp [hm], hown, hs⟩
          · rcases List.mem_cons.mp hm with rfl | hm
            · exact absurd hown hune
            · exact Or.inr ⟨m, hm, hown, hs⟩) t ht
        simpa using key
      · rw [dispatchInput_cons_long _ _ _ _ _ _ _ hel hshort]
        intro t ht
        have key := ih (done ++ [{ l with debounceTimer := some nextId }])
          ({ id := nextId, due := now + 500, code := trim value } ::
            clearTimeout l.debounceTimer timers) (nextId + 1) (by
          intro u hu
          rcases List.mem_cons.mp hu with rfl | hu
          · refine Or.inl ⟨{ l with debounceTimer := some nextId }, by simp, rfl, ?_⟩
            have hle : l.element = element := by simpa using hel
            exact ⟨[], now, value, log, by simp [hle], by simp, rfl, Nat.le_of_not_lt hshort, rfl⟩
          · obtain ⟨humem, hune⟩ := mem_clearTimeout hu
            rcases h u humem with ⟨m, hm, hown, hs⟩ | ⟨m, hm, hown, hs⟩
            · exact Or.inl ⟨m, by simp [hm], hown, hs⟩
            · rcases List.mem_cons.mp hm with rfl | hm
              · exact absurd hown hune
              · exact Or.inr ⟨m, hm, hown, hs⟩) t ht
        simpa using key
    · simp only [Bool.not_eq_true] at hel
      rw [dispatchInput_cons_other _ _ _ _ _ _ _ hel]
      intro t ht
      have key := ih (done ++ [l]) timers nextId (by
        intro u hu
        rcases h u hu with ⟨m, hm, hown, hs⟩ | ⟨m, hm, hown, hs⟩
        · exact Or.inl ⟨m, by simp [hm], hown, hs⟩
        · rcases List.mem_cons.mp hm with rfl | hm
          · refine Or.inl ⟨m, by simp, hown, scheduledBy_cons log _ m.element _ _ ?_ hs⟩
            simp only [LogEntry.isInputOn]
            rw [Bool.eq_false_iff]
            intro hcontra
            rw [beq_iff_eq] at hcontra
            simp [hcontra] at hel
          · exact Or.inr ⟨m, hm, hown, hs⟩) t ht
      simpa using key

/-- After an `input` event on an element, an active timer remembered by a listener of that element was set by this event. -/
theorem dispatchInput_fresh (now element : Nat) (value : JSString)
    (todo done : List Listener) (timers : List Timer) (nextId : Nat)
    (hid : ∀ t ∈ timers, t.id < nextId)
    (h : ∀ t ∈ timers, ∀ l ∈ done, l.element = element → l.debounceTimer = some t.id →
      t.due = now + 500 ∧ t.code = trim value) :
    ∀ t ∈ (dispatchInput now element value todo timers nextId).2.1,
      ∀ l ∈ done ++ (dispatchInput now element value todo timers nextId).1,
        l.element = element → l.debounceTimer = some t.id →
          t.due = now + 500 ∧ t.code = trim value := by
  induction todo generalizing done timers nextId with
  | nil => simpa [dispatchInput_nil] using h
  | cons l rest ih =>
    by_cases hel : (l.element == element) = true
    · by_cases hshort : (trim value).length < 3
      · rw [dispatchInput_cons_short _ _ _ _ _ _ _ hel hshort]
        have key := ih (done ++ [l]) (clearTimeout l.debounceTimer timers) nextId
          (fun t ht => hid t (mem_clearTimeout ht).1) (by
          intro u hu m hm hme hown
          obtain ⟨humem, hune⟩ := mem_clearTimeout hu
          rcases List.mem_append.mp hm with hm | hm
          · exact h u humem m hm hme hown
          · simp only [List.mem_singleton] at hm
            subst hm
            exact absurd hown hune)
        simpa using key
      · rw [dispatchInput_cons_long _ _ _ _ _ _ _ hel hshort]
        have key := ih (done ++ [{ l with debounceTimer := some nextId }])
          ({ id := nextId, due := now + 500, code := trim value } ::
            clearTimeout l.debounceTimer timers) (nextId + 1) (by
          intro t ht
          rcases List.mem_cons.mp ht with rfl | ht
          · exact Nat.lt_succ_self _
          · exact Nat.lt_succ_of_lt (hid t (mem_clearTimeout ht).1)) (by
          intro u hu m hm hme hown
          rcases List.mem_cons.mp hu with rfl | hu
          · exact ⟨rfl, rfl⟩
          · obtain ⟨humem, -⟩ := mem_clearTimeout hu
            rcases List.mem_append.mp hm with hm | hm
            · exact h u humem m hm hme hown
            · simp only [List.mem_singleton] at hm
              subst hm
              simp only [Option.some.injEq] at hown
              exact absurd hown (Nat.ne_of_gt (hid u humem)))
        simpa using key
    · simp only [Bool.not_eq_true] at hel
      rw [dispatchInput_cons_other _ _ _ _ _ _ _ hel]
      have key := ih (done ++ [l]) timers nextId hid (by
        intro u hu m hm hme hown
        rcases List.mem_append.mp hm with hm | hm
        · exact h u hu m hm hme hown
        · simp only [List.mem_singleton] at hm
          subst hm
          simp [hme] at hel)
      simpa using key

/-- The invariant holds before `initializeCart` ran. -/
theorem debounceInvariant_init (now nextId : Nat) :
    DebounceInvariant (InputState.init now nextId) := by
  refine ⟨by simp [InputState.init], by simp [InputState.init], ?_⟩
  intro newer older time code h
  simp [InputState.init] at h

/-- Logging an `input` event keeps the schedule of every logged call. -/
theorem log_cons_input (log : List LogEntry) (t0 element : Nat) (value : JSString)
    (h : ∀ newer older time code, log = newer ++ LogEntry.validateCoupon time code :: older →
      ∃ due el, ScheduledBy older el due code ∧ due ≤ time) :
    ∀ newer older time code,
      LogEntry.input t0 element value :: log
        = newer ++ LogEntry.validateCoupon time code :: older →
      ∃ due el, ScheduledBy older el due code ∧ due ≤ time := by
  intro newer older time code heq
  cases newer with
  | nil => simp at heq
  | cons b rest =>
    simp only [List.cons_append, List.cons.injEq] at heq
    exact h rest older time code heq.2

/-- A call of `initializeCart` preserves the invariant. -/
theorem debounceInvariant_initializeCart (st : InputState) (couponInput : Option Nat)
    (h : DebounceInvariant st) : DebounceInvariant (initializeCart st couponInput) := by
  cases couponInput with
  | none => exact h
  | some element =>
    refine ⟨h.1, ?_, h.2.2⟩
    intro t ht
    obtain ⟨l, hl, hown, hs⟩ := h.2.1 t ht
    exact ⟨l, by simp [initializeCart, hl], hown, hs⟩

/-- An `input` event preserves the invariant. -/
theorem debounceInvariant_inputEvent (st : InputState) (element : Nat) (value : JSString)
    (h : DebounceInvariant st) : DebounceInvariant (inputEvent st element value) := by
  refine ⟨?_, ?_, ?_⟩
  · exact dispatchInput_ids st.now element value st.listeners st.timers st.nextId h.1
  · have key := dispatchInput_owned st.now element value st.log st.listeners [] st.timers
      st.nextId (fun t ht => Or.inr (h.2.1 t ht))
    simpa [inputEvent] using key
  · exact log_cons_input st.log st.now element value h.2.2

/-- A timer that runs preserves the invariant. -/
theorem debounceInvariant_fireTimer (st next : InputState) (id : Nat)
    (h : DebounceInvariant st) (hfire : fireTimer st id = some next) :
    DebounceInvariant next := by
  unfold fireTimer at hfire
  split at hfire
  · simp at hfire
  · rename_i t hfind
    split at hfire
    · rename_i hdue
      injection hfire with hfire
      subst hfire
      have hmem : t ∈ st.timers := List.mem_of_find?_eq_some hfind
      refine ⟨?_, ?_, ?_⟩
      · intro u hu
        exact h.1 u (List.mem_filter.mp hu).1
      · intro u hu
        obtain ⟨l, hl, hown, hs⟩ := h.2.1 u (List.mem_filter.mp hu).1
        exact ⟨l, hl, hown, scheduledBy_cons st.log _ l.element _ _ rfl hs⟩
      · intro newer older time code heq
        cases newer with
        | nil =>
          simp only [List.nil_append, List.cons.injEq, LogEntry.validateCoupon.injEq] at heq
          obtain ⟨⟨htime, hc⟩, holder⟩ := heq
          obtain ⟨l, -, -, hs⟩ := h.2.1 t hmem
          exact ⟨t.due, l.element, holder ▸ hc ▸ hs, htime ▸ hdue⟩
        | cons b more =>
          simp only [List.cons_append, List.cons.injEq] at heq
          exact h.2.2 more older time code heq.2
    · simp at hfire

/-- Every move of the event loop preserves the invariant. -/
theorem debounceInvariant_step (st next : InputState) (a : Action)
    (h : DebounceInvariant st) (hstep : step st a = some next) : DebounceInvariant next := by
  cases a with
  | wait ms =>
    simp only [step, Option.some.injEq] at hstep
    subst hstep
    exact h
  | initializeCart couponInput =>
    simp only [step, Option.some.injEq] at hstep
    subst hstep
    exact debounceInvariant_initializeCart st couponInput h
  | input element value =>
    simp only [step, Option.some.injEq] at hstep
    subst hstep
    exact debounceInvariant_inputEvent st element value h
  | fire id => exact debounceInvariant_fireTimer st next id h hstep

/-- Every schedule preserves the invariant. -/
theorem debounceInvariant_run (actions : List Action) (st final : InputState)
    (h : DebounceInvariant st) (hrun : run st actions = some final) :
    DebounceInvariant final := by
  induction actions generalizing st with
  | nil =>
    simp only [run, Option.some.injEq] at hrun
    exact hrun ▸ h
  | cons a rest ih =>
    simp only [run] at hrun
    split at hrun
    · simp at hrun
    · rename_i next hstep
      exact ih next (debounceInvariant_step st next a h hstep) hrun

/-- What the listeners do guarantee, element by element, in every schedule of moves (calls of
`initializeCart` included): each call of `validateCoupon` receives the trimmed value, of
length at least 3, of an `input` event on some element, at least 500 ms after that event and
with no `input` event on that same element in between; and after an `input` event on an
element every active timer remembered by a listener of that element was set by this event. -/
theorem debounce_within_one_element (now nextId : Nat) (actions : List Action)
    (st : InputState) (hrun : run (InputState.init now nextId) actions = some st) :
    (∀ newer older time code,
      st.log = newer ++ LogEntry.validateCoupon time code :: older →
      ∃ between t0 element value rest,
        older = between ++ LogEntry.input t0 element value :: rest ∧
        (∀ e ∈ between, e.isInputOn element = false) ∧ code = trim value ∧
        3 ≤ code.length ∧ t0 + 500 ≤ time) ∧
    (∀ element value, ∀ t ∈ (inputEvent st element value).timers,
      ∀ l ∈ (inputEvent st element value).listeners,
        l.element = element → l.debounceTimer = some t.id →
          t.due = st.now + 500 ∧ t.code = trim value) := by
  have hinv := debounceInvariant_run actions _ st (debounceInvariant_init now nextId) hrun
  refine ⟨?_, ?_⟩
  · intro newer older time code hlog
    obtain ⟨due, element, ⟨between, t0, value, rest, hsplit, hbetween, hcode, hlen, hdue⟩, hle⟩ :=
      hinv.2.2 newer older time code hlog
    exact ⟨between, t0, element, value, rest, hsplit, hbetween, hcode, hlen, hdue ▸ hle⟩
  · intro element value
    have key := dispatchInput_fresh st.now element value st.listeners [] st.timers st.nextId
      hinv.1 (by simp)
    simpa [inputEvent] using key

/-- Claim C4 is broken by the code. The coupon input (element 0) is bound at load and receives
`save10` at 0 ms; an apply response replaces the order summary container at 200 ms and
`initializeCart` binds the new coupon input (element 1); that input receives `sa` at 300 ms,
which cancels nothing; at 500 ms the timer of the replaced input is still active and calls
`validateCoupon('save10')`, 200 ms after the last input event. -/
theorem stale_timer_fires_after_rebinding :
    run (InputState.init 0 0)
        [.initializeCart (some 0), .input 0 (lit "save10"), .wait 200,
          .initializeCart (some 1), .wait 100, .input 1 (lit "sa"), .wait 200, .fire 0]
      = some
          { now := 500, nextId := 1, timers := [],
            listeners := [⟨0, some 0⟩, ⟨1, none⟩],
            log := [LogEntry.validateCoupon 500 (lit "save10"), LogEntry.input 300 1 (lit "sa"),
              LogEntry.input 0 0 (lit "save10")] } ∧
    (run (InputState.init 0 0)
        [.initializeCart (some 0), .input 0 (lit "save10"), .wait 200,
          .initializeCart (some 1), .wait 100, .input 1 (lit "sa")]).map
        (fun st => st.timers.map (fun t => (t.id, t.due, t.code)))
      = some [(0, 500, lit "save10")] :=
  ⟨rfl, rfl⟩

/-- On a coupon input that survives the replacement, the second call of `initializeCart` adds a
second listener: one `input` event sets two timers and `validateCoupon` is called twice. -/
theorem rebinding_duplicates_the_listener :
    run (InputState.init 0 0)
        [.initializeCart (some 0), .initializeCart (some 0), .input 0 (lit "save10"),
          .wait 500, .fire 0, .fire 1]
      = some
          { now := 500, nextId := 2, timers := [],
            listeners := [⟨0, some 0⟩, ⟨0, some 1⟩],
            log := [LogEntry.validateCoupon 500 (lit "save10"),
              LogEntry.validateCoupon 500 (lit "save10"), LogEntry.input 0 0 (lit "save10")] } :=
  rfl

/-- A timer cannot run before its 500 ms have passed. -/
theorem early_timer_cannot_fire :
    run (InputState.init 0 0)
      [.initializeCart (some 0), .input 0 (lit "save10"), .wait 499, .fire 0] = none := rfl

/-- With one listener on the input, a timer cancelled by a later, too short, input never runs. -/
theorem cancelled_timer_cannot_fire :
    run (InputState.init 0 0)
      [.initializeCart (some 0), .input 0 (lit "save10"), .wait 200, .input 0 (lit "sa"),
        .wait 500, .fire 0] = none := rfl

/-! ### wishlist.js: confirmation and the CSRF token -/

/-- Claim C5. For every product id, when the confirmation dialog answers `false`,
`removeFromWishlist` issues no request, reloads nothing and shows no alert. -/
theorem unconfirmed_removal_is_inert (page : WishlistPage) (productId : JSString)
    (outcome : FetchOutcome) :
    (removeFromWishlist page false productId outcome).filter Effect.isFetch = [] ∧
    (removeFromWishlist page false productId outcome).filter Effect.isReload = [] ∧
    (removeFromWishlist page false productId outcome).filter Effect.isAlert = [] := by
  simp [removeFromWishlist, Effect.isFetch, Effect.isReload, Effect.isAlert]

/-- The separator `"; "` as code units. -/
theorem lit_semicolon_space : lit "; " = [59, 32] := rfl
/-- The sign `=` as a code unit. -/
theorem lit_equals : lit "=" = [61] := rfl
/-- The sign `;` as a code unit. -/
theorem lit_semicolon : lit ";" = [59] := rfl

/-- The string `"; " + document.cookie` is the concatenation of the pieces `; k=v`. -/
theorem cookieString_blocks (c : JSString × JSString) (jar : List (JSString × JSString)) :
    lit "; " ++ cookieString (c :: jar) = (c :: jar).flatMap cookieBlock := by
  induction jar generalizing c with
  | nil =>
    obtain ⟨k, v⟩ := c
    simp [cookieString, cookieBlock, lit_semicolon_space, lit_equals]
  | cons d rest ih =>
    obtain ⟨k, v⟩ := c
    have := ih d
    simp only [List.flatMap_cons] at this ⊢
    rw [← this]
    simp [cookieString, cookieBlock, lit_semicolon_space, lit_equals]

/-- The scanning loop passes over the rest of a matched separator. -/
theorem splitAux_skip (sep : JSString) (w t cur : JSString) :
    splitAux sep w.length cur (w ++ t) = splitAux sep 0 cur t := by
  induction w with
  | nil => cases t <;> simp [splitAux]
  | cons x w ih => simpa [splitAux] using ih

/-- One step of the scanning loop outside a separator. -/
theorem splitAux_zero_cons (sep cur rest : JSString) (c : Nat) :
    splitAux sep 0 cur (c :: rest) =
      if sep.isPrefixOf (c :: rest) then cur :: splitAux sep (sep.length - 1) [] rest
      else splitAux sep 0 (cur ++ [c]) rest := by
  rw [splitAux]

/-- At an occurrence of the separator the piece read so far is closed. -/
theorem splitAux_match (c0 : Nat) (rest cur t : JSString) :
    splitAux (c0 :: rest) 0 cur ((c0 :: rest) ++ t) = cur :: splitAux (c0 :: rest) 0 [] t := by
  have h : (c0 :: rest).isPrefixOf (c0 :: (rest ++ t)) = true := by
    rw [List.isPrefixOf_iff_prefix]
    exact List.prefix_append (c0 :: rest) t
  rw [List.cons_append, splitAux_zero_cons, if_pos h, List.length_cons, Nat.add_sub_cancel,
    splitAux_skip]

/-- Code units that differ from the first one of the separator are added to the piece. -/
theorem splitAux_pass (c0 : Nat) (rest w cur t : JSString) (hw : ∀ x ∈ w, x ≠ c0) :
    splitAux (c0 :: rest) 0 cur (w ++ t) = splitAux (c0 :: rest) 0 (cur ++ w) t := by
  induction w generalizing cur with
  | nil => simp
  | cons x w ih =>
    have hx : x ≠ c0 := hw x (List.mem_cons_self _ _)
    have h : (c0 :: rest).isPrefixOf (x :: (w ++ t)) = false := by
      simp [List.isPrefixOf, Ne.symm hx]
    rw [List.cons_append, splitAux_zero_cons, h,
      ih (cur ++ [x]) (fun y hy => hw y (List.mem_cons_of_mem _ hy))]
    simp

/-- Two names without `=` that agree up to and including a following `=` are equal. -/
theorem same_name_of_leading (name k r : JSString) (hn : 61 ∉ name) (hk : 61 ∉ k)
    (h : name ++ [61] <+: k ++ 61 :: r) : name = k := by
  induction name generalizing k with
  | nil =>
    cases k with
    | nil => rfl
    | cons x k =>
      simp only [List.nil_append, List.cons_append, List.cons_prefix_cons] at h
      exact absurd (h.1 ▸ List.mem_cons_self _ _) hk
  | cons a n ih =>
    cases k with
    | nil =>
      simp only [List.nil_append, List.cons_append, List.cons_prefix_cons] at h
      exact absurd (h.1 ▸ List.mem_cons_self _ _) hn
    | cons x k =>
      simp only [List.cons_append, List.cons_prefix_cons] at h
      rw [h.1, ih k (fun hm => hn (List.mem_cons_of_mem _ hm))
        (fun hm => hk (List.mem_cons_of_mem _ hm)) h.2]

/-- The separator built by `getCookie`, as code units. -/
theorem cookie_separator (name : JSString) :
    lit "; " ++ name ++ lit "=" = 59 :: 32 :: (name ++ [61]) := by
  simp [lit_semicolon_space, lit_equals]

/-- Well-formedness of a cookie, as membership statements. -/
theorem wellFormedCookie_iff (c : JSString × JSString) :
    wellFormedCookie c = true ↔ 59 ∉ c.1 ∧ 61 ∉ c.1 ∧ 59 ∉ c.2 := by
  simp [wellFormedCookie, and_assoc]

/-- The piece of a cookie of another name is copied whole. -/
theorem splitAux_other_cookie (name cur t : JSString) (c : JSString × JSString)
    (hname : 61 ∉ name) (hc : wellFormedCookie c = true) (hne : c.1 ≠ name) :
    splitAux (59 :: 32 :: (name ++ [61])) 0 cur (cookieBlock c ++ t)
      = splitAux (59 :: 32 :: (name ++ [61])) 0 (cur ++ cookieBlock c) t := by
  obtain ⟨h1, h2, h3⟩ := (wellFormedCookie_iff c).mp hc
  have hpre : (59 :: 32 :: (name ++ [61])).isPrefixOf (59 :: (32 :: (c.1 ++ 61 :: c.2) ++ t))
      = false := by
    rw [Bool.eq_false_iff]
    intro h
    rw [List.isPrefixOf_iff_prefix] at h
    simp only [List.cons_append, List.cons_prefix_cons, true_and, List.append_assoc] at h
    exact hne (same_name_of_leading name c.1 (c.2 ++ t) hname h2 h).symm
  have hpass : ∀ x ∈ 32 :: (c.1 ++ 61 :: c.2), x ≠ 59 := by
    intro x hx
    simp only [List.mem_cons, List.mem_append] at hx
    rcases hx with rfl | hx | rfl | hx
    · decide
    · exact fun h => h1 (h ▸ hx)
    · decide
    · exact fun h => h3 (h ▸ hx)
  show splitAux _ 0 cur (59 :: (32 :: (c.1 ++ 61 :: c.2) ++ t)) = _
  rw [splitAux_zero_cons, hpre]
  simp only [Bool.false_eq_true, if_false]
  rw [splitAux_pass 59 _ _ _ _ hpass]
  simp [cookieBlock]

/-- Without a cookie of the given name the split has one part. -/
theorem splitAux_no_cookie (name cur : JSString) (jar : List (JSString × JSString))
    (hname : 61 ∉ name) (hjar : ∀ c ∈ jar, wellFormedCookie c = true)
    (hne : ∀ c ∈ jar, c.1 ≠ name) :
    splitAux (59 :: 32 :: (name ++ [61])) 0 cur (jar.flatMap cookieBlock)
      = [cur ++ jar.flatMap cookieBlock] := by
  induction jar generalizing cur with
  | nil => simp [splitAux]
  | cons c rest ih =>
    rw [List.flatMap_cons, splitAux_other_cookie name cur _ c hname
      (hjar c (List.mem_cons_self _ _)) (hne c (List.mem_cons_self _ _)),
      ih _ (fun d hd => hjar d (List.mem_cons_of_mem _ hd))
        (fun d hd => hne d (List.mem_cons_of_mem _ hd))]
    simp

/-- With exactly one cookie of the given name the split has two parts, the second one starting with the value. -/
theorem splitAux_one_cookie (name v cur : JSString) (pre post : List (JSString × JSString))
    (hname : 61 ∉ name) (hv : 59 ∉ v)
    (hpre : ∀ c ∈ pre, wellFormedCookie c = true) (hpost : ∀ c ∈ post, wellFormedCookie c = true)
    (hnpre : ∀ c ∈ pre, c.1 ≠ name) (hnpost : ∀ c ∈ post, c.1 ≠ name) :
    splitAux (59 :: 32 :: (name ++ [61])) 0 cur ((pre ++ (name, v) :: post).flatMap cookieBlock)
      = [cur ++ pre.flatMap cookieBlock, v ++ post.flatMap cookieBlock] := by
  induction pre generalizing cur with
  | nil =>
    have hblock : cookieBlock (name, v) ++ post.flatMap cookieBlock
        = (59 :: 32 :: (name ++ [61])) ++ (v ++ post.flatMap cookieBlock) := by
      simp [cookieBlock]
    rw [List.nil_append, List.flatMap_cons, hblock, splitAux_match,
      splitAux_pass 59 _ v [] _ (fun x hx h => hv (h ▸ hx)),
      splitAux_no_cookie name _ post hname hpost hnpost]
    simp
  | cons c rest ih =>
    rw [List.cons_append, List.flatMap_cons, splitAux_other_cookie name cur _ c hname
      (hpre c (List.mem_cons_self _ _)) (hnpre c (List.mem_cons_self _ _)),
      ih _ (fun d hd => hpre d (List.mem_cons_of_mem _ hd))
        (fun d hd => hnpre d (List.mem_cons_of_mem _ hd))]
    simp

/-- The value is what comes before the first `;` of the second part. -/
theorem split_value_head (v : JSString) (post : List (JSString × JSString)) (hv : 59 ∉ v) :
    (split (lit ";") (v ++ post.flatMap cookieBlock)).head? = some v := by
  have hsplit : split (lit ";") (v ++ post.flatMap cookieBlock)
      = splitAux [59] 0 [] (v ++ post.flatMap cookieBlock) := by
    simp [split, lit_semicolon]
  rw [hsplit, splitAux_pass 59 [] v [] _ (fun x hx h => hv (h ▸ hx))]
  cases post with
  | nil => simp [splitAux]
  | cons d rest =>
    simp [cookieBlock, splitAux_zero_cons, List.isPrefixOf]

/-- The function `getCookie` returns the value of the only cookie of the given name. -/
theorem getCookie_one (name v : JSString) (pre post : List (JSString × JSString))
    (hname : 61 ∉ name) (hv : 59 ∉ v)
    (hpre : ∀ c ∈ pre, wellFormedCookie c = true) (hpost : ∀ c ∈ post, wellFormedCookie c = true)
    (hnpre : ∀ c ∈ pre, c.1 ≠ name) (hnpost : ∀ c ∈ post, c.1 ≠ name) :
    getCookie (cookieString (pre ++ (name, v) :: post)) name = some v := by
  have hvalue : lit "; " ++ cookieString (pre ++ (name, v) :: post)
      = (pre ++ (name, v) :: post).flatMap cookieBlock := by
    cases pre with
    | nil => exact cookieString_blocks _ _
    | cons c rest => exact cookieString_blocks _ _
  have hparts : split (lit "; " ++ name ++ lit "=") (lit "; " ++ cookieString (pre ++ (name, v) :: post))
      = [pre.flatMap cookieBlock, v ++ post.flatMap cookieBlock] := by
    rw [hvalue, cookie_separator]
    simp only [split, List.isEmpty_cons, Bool.false_eq_true, if_false]
    rw [splitAux_one_cookie name v [] pre post hname hv hpre hpost hnpre hnpost]
    simp
  unfold getCookie
  simp only [hparts]
  simpa using split_value_head v post hv

/-- The function `getCookie` returns `undefined` when no cookie has the given name. -/
theorem getCookie_none (name : JSString) (jar : List (JSString × JSString))
    (hname : 61 ∉ name) (hjar : ∀ c ∈ jar, wellFormedCookie c = true)
    (hne : ∀ c ∈ jar, c.1 ≠ name) :
    getCookie (cookieString jar) name = none := by
  have hparts : (split (lit "; " ++ name ++ lit "=") (lit "; " ++ cookieString jar)).length = 1 := by
    rw [cookie_separator]
    simp only [split, List.isEmpty_cons, Bool.false_eq_true, if_false]
    cases jar with
    | nil =>
      simp [cookieString, lit_semicolon_space, splitAux_zero_cons, List.isPrefixOf, splitAux]
    | cons c rest =>
      rw [cookieString_blocks, splitAux_no_cookie name [] _ hname hjar hne]
      simp
  unfold getCookie
  simp only [hparts]
  rfl

/-- The `then` callback of `removeFromWishlist` issues no request. -/
theorem removeFromWishlist_onData_filter_isFetch (data : JSVal) :
    (removeFromWishlist.onData data).effects.filter Effect.isFetch = [] := by
  unfold removeFromWishlist.onData
  split
  · rfl
  · split <;> simp [Effect.isFetch]

/-- Every request of `removeFromWishlist` carries the token as `X-CSRFToken`. -/
theorem removeFromWishlist_header (page : WishlistPage) (productId : JSString)
    (outcome : FetchOutcome) (req : Request)
    (h : Effect.fetch req ∈ removeFromWishlist page true productId outcome) :
    req.headers.lookup "X-CSRFToken" = some (.str (wishlistCsrfToken page)) := by
  have hf : (removeFromWishlist page true productId outcome).filter Effect.isFetch
      = [.fetch
          { url := lit "/wishlist/remove/" ++ productId ++ lit "/"
            method := "POST"
            body := none
            headers := [("X-CSRFToken", .str (wishlistCsrfToken page)),
                        ("X-Requested-With", .str (lit "XMLHttpRequest"))]
            credentials := none }] := by
    unfold removeFromWishlist
    simp only [Bool.not_true, Bool.false_eq_true, if_false, List.filter_append]
    rw [filter_settle _ _ _ _ _ removeFromWishlist_onData_filter_isFetch]
    · simp [List.filter, Effect.isFetch]
    · simp [List.filter, Effect.isFetch]
    · rfl
  have hmem : Effect.fetch req ∈ (removeFromWishlist page true productId outcome).filter
      Effect.isFetch := List.mem_filter.mpr ⟨h, rfl⟩
  rw [hf, List.mem_singleton] at hmem
  injection hmem with hreq
  subst hreq
  rfl

/-- Claim C10 fails as stated: the cookie string `csrftoken=a; csrftoken=b` contains a cookie
named `csrftoken`, yet `getCookie('csrftoken')` is `undefined` and the token sent is the empty
string, the value of neither cookie. -/
theorem duplicate_csrf_cookie_is_dropped :
    cookieString [(lit "csrftoken", lit "a"), (lit "csrftoken", lit "b")]
      = lit "csrftoken=a; csrftoken=b" ∧
    getCookie (lit "csrftoken=a; csrftoken=b") (lit "csrftoken") = none ∧
    wishlistCsrfToken ⟨none, lit "csrftoken=a; csrftoken=b"⟩ = [] := by
  decide

/-- Claim C10, amended. The `X-CSRFToken` header sent by `removeFromWishlist` is the value of the
`csrfmiddlewaretoken` field when there is one; otherwise, for `document.cookie` serialising a
jar of well-formed cookies, it is the value of the cookie named `csrftoken` when the jar holds
exactly one such cookie (cookies of any other name, such as `xcsrftoken`, are not matched), and
the empty string when the jar holds none. -/
theorem csrf_token_of_wishlist_request (page : WishlistPage) (productId : JSString)
    (outcome : FetchOutcome) (jar : List (JSString × JSString))
    (hjar : jar.all wellFormedCookie = true) (hcookie : page.cookie = cookieString jar) :
    (∀ req, Effect.fetch req ∈ removeFromWishlist page true productId outcome →
      req.headers.lookup "X-CSRFToken" = some (.str (wishlistCsrfToken page))) ∧
    (∀ value, page.csrfField = some value → wishlistCsrfToken page = value) ∧
    (page.csrfField = none →
      ∀ v, jar.filter (fun c => c.1 == lit "csrftoken") = [(lit "csrftoken", v)] →
        getCookie page.cookie (lit "csrftoken") = some v ∧ wishlistCsrfToken page = v) ∧
    (page.csrfField = none → jar.filter (fun c => c.1 == lit "csrftoken") = [] →
      getCookie page.cookie (lit "csrftoken") = none ∧ wishlistCsrfToken page = []) := by
  have hname : 61 ∉ lit "csrftoken" := by decide
  have hwf : ∀ c ∈ jar, wellFormedCookie c = true := by simpa using hjar
  refine ⟨fun req h => removeFromWishlist_header page productId outcome req h, ?_, ?_, ?_⟩
  · intro value hfield
    simp [wishlistCsrfToken, hfield]
  · intro hfield v hfilter
    obtain ⟨pre, post, hsplit, hpre, -, hpost⟩ := List.filter_eq_cons_iff.mp hfilter
    have hnpre : ∀ c ∈ pre, c.1 ≠ lit "csrftoken" := by
      intro c hc h
      exact hpre c hc (by simp [h])
    have hnpost : ∀ c ∈ post, c.1 ≠ lit "csrftoken" := by
      intro c hc h
      exact (List.filter_eq_nil_iff.mp hpost) c hc (by simp [h])
    have hwpre : ∀ c ∈ pre, wellFormedCookie c = true :=
      fun c hc => hwf c (hsplit ▸ List.mem_append_left _ hc)
    have hwpost : ∀ c ∈ post, wellFormedCookie c = true :=
      fun c hc => hwf c (hsplit ▸ List.mem_append_right _ (List.mem_cons_of_mem _ hc))
    have hv : 59 ∉ v :=
      ((wellFormedCookie_iff _).mp
        (hwf _ (hsplit ▸ List.mem_append_right _ (List.mem_cons_self _ _)))).2.2
    have hget : getCookie page.cookie (lit "csrftoken") = some v := by
      rw [hcookie, hsplit]
      exact getCookie_one _ v pre post hname hv hwpre hwpost hnpre hnpost
    refine ⟨hget, ?_⟩
    simp only [wishlistCsrfToken, hfield, hget]
    cases v <;> simp
  · intro hfield hfilter
    have hne : ∀ c ∈ jar, c.1 ≠ lit "csrftoken" := by
      intro c hc h
      exact (List.filter_eq_nil_iff.mp hfilter) c hc (by simp [h])
    have hget : getCookie page.cookie (lit "csrftoken") = none := by
      rw [hcookie]
      exact getCookie_none _ jar hname hwf hne
    exact ⟨hget, by simp [wishlistCsrfToken, hfield, hget]⟩

/-- Claim C10, amended, at the jar `xcsrftoken=bad; csrftoken=tok; theme=dark`. -/
theorem csrf_token_of_wishlist_request_witness :
    getCookie (cookieString [(lit "xcsrftoken", lit "bad"), (lit "csrftoken", lit "tok"),
        (lit "theme", lit "dark")]) (lit "csrftoken") = some (lit "tok") ∧
    wishlistCsrfToken ⟨none, cookieString [(lit "xcsrftoken", lit "bad"),
        (lit "csrftoken", lit "tok"), (lit "theme", lit "dark")]⟩ = lit "tok" :=
  (csrf_token_of_wishlist_request
    ⟨none, cookieString [(lit "xcsrftoken", lit "bad"), (lit "csrftoken", lit "tok"),
      (lit "theme", lit "dark")]⟩
    (lit "7") .rejected
    [(lit "xcsrftoken", lit "bad"), (lit "csrftoken", lit "tok"), (lit "theme", lit "dark")]
    (by decide) rfl).2.2.1 rfl (lit "tok") (by decide)

/-! ### Incomplete responses and failed requests, across the scripts -/

/-- Claim C7 fails as stated: on the response `{}`, where `valid` is absent,
`handleCouponSubmit` does not reload the page; it shows the inline error
`Invalid coupon code`. -/
theorem apply_without_valid_does_not_reload :
    truthy ((JSVal.obj []).prop "valid") = false ∧
    (handleCouponSubmit asciiUpperMapping ⟨true, true, none, 0⟩
        ⟨[("coupon_code", lit "save10")], lit "/cart/coupon/apply/", some (lit "Apply")⟩
        (.json (.obj []))).filter Effect.isReload = [] ∧
    (handleCouponSubmit asciiUpperMapping ⟨true, true, none, 0⟩
        ⟨[("coupon_code", lit "save10")], lit "/cart/coupon/apply/", some (lit "Apply")⟩
        (.json (.obj []))).filter Effect.isMessage
      = [.setMessageText (.str []),
         .setMessageClass (lit "mt-1 text-sm text-green-600"),
         .setMessageText (.str (lit "Invalid coupon code")),
         .setMessageClass (lit "mt-1 text-sm text-red-600")] :=
  ⟨rfl, rfl, rfl⟩

/-- Claim C7, amended. For a response other than `null`: `handleCouponSubmit` reloads the page
when `valid` is truthy and `order_summary_html` absent or falsy, and with `valid` absent or
falsy it shows the inline error (`message` or `Invalid coupon code`) without reloading or
navigating; `handleRemoveCoupon`, when `valid` or `order_summary_html` is absent or falsy,
reloads the page if `success` is truthy or `redirect` absent or falsy, and otherwise navigates
to `redirect`; `removeFromWishlist` reloads when `success` is truthy and otherwise shows an
alert (`message` or `Failed to remove item.`) without reloading. -/
theorem absent_fields_fallbacks (upperMapping : Nat → List Nat) (page : Page)
    (form removeForm : CouponForm) (wishlist : WishlistPage) (productId b rb : JSString)
    (data : JSVal)
    (hb : form.submitButton = some b) (hrb : removeForm.submitButton = some rb)
    (hdata : data.isNullish = false) :
    (truthy (data.prop "valid") = false →
      (handleCouponSubmit upperMapping page form (.json data)).filter Effect.isReload = []
      ∧ (handleCouponSubmit upperMapping page form (.json data)).filter Effect.isNavigate = []
      ∧ (handleCouponSubmit upperMapping page form (.json data)).filter Effect.isMessage
          = showCouponMessage page (.str []) "success" ++
            showCouponMessage page
              (jsOr (data.prop "message") (.str (lit "Invalid coupon code"))) "error") ∧
    (truthy (data.prop "valid") = true → truthy (data.prop "order_summary_html") = false →
      (handleCouponSubmit upperMapping page form (.json data)).filter Effect.isReload
        = [.reload]) ∧
    (truthy (data.prop "valid") = false ∨ truthy (data.prop "order_summary_html") = false →
      (truthy (data.prop "success") = true ∨ truthy (data.prop "redirect") = false →
        (handleRemoveCoupon page removeForm (.json data)).filter Effect.isReload = [.reload]
        ∧ (handleRemoveCoupon page removeForm (.json data)).filter Effect.isNavigate = []) ∧
      (truthy (data.prop "success") = false ∧ truthy (data.prop "redirect") = true →
        (handleRemoveCoupon page removeForm (.json data)).filter Effect.isReload = []
        ∧ (handleRemoveCoupon page removeForm (.json data)).filter Effect.isNavigate
            = [.navigate (data.prop "redirect")])) ∧
    (truthy (data.prop "success") = true →
      (removeFromWishlist wishlist true productId (.json data)).filter Effect.isReload
        = [.reload]) ∧
    (truthy (data.prop "success") = false →
      (removeFromWishlist wishlist true productId (.json data)).filter Effect.isReload = []
      ∧ (removeFromWishlist wishlist true productId (.json data)).filter Effect.isAlert
          = [.alert (jsOr (data.prop "message") (.str (lit "Failed to remove item.")))]) := by
  have hget := JSVal.get_of_not_nullish data "valid" hdata
  have hgets := JSVal.get_of_not_nullish data "success" hdata
  refine ⟨?_, ?_, ?_, ?_, ?_⟩
  · intro hvalid
    refine ⟨?_, ?_, ?_⟩ <;>
    simp [handleCouponSubmit, handleCouponSubmit.onData, settle, hb, hget, hvalid,
      List.filter_append,
      filter_showCouponMessage _ _ _ _ isReload_of_isMessage,
      filter_showCouponMessage _ _ _ _ isNavigate_of_isMessage,
      filter_isMessage_showCouponMessage,
      Effect.isReload, Effect.isNavigate, Effect.isMessage, List.filter]
  · intro hvalid hhtml
    simp [handleCouponSubmit, handleCouponSubmit.onData, settle, hb, hget, hvalid, hhtml,
      List.filter_append,
      filter_showCouponMessage _ _ _ _ isReload_of_isMessage,
      Effect.isReload, List.filter]
  · intro hvh
    have hcond : (truthy (data.prop "valid") && truthy (data.prop "order_summary_html")
        && page.hasContainer) = false := by
      rcases hvh with h | h <;> simp [h]
    refine ⟨?_, ?_⟩
    · rintro (hs | hr)
      · constructor <;>
        simp [handleRemoveCoupon, handleRemoveCoupon.onData, settle, hrb, hget, hcond, hs,
          List.filter_append, Effect.isReload, Effect.isNavigate, List.filter]
      · constructor <;>
        cases hs : truthy (data.prop "success") <;>
        simp [handleRemoveCoupon, handleRemoveCoupon.onData, settle, hrb, hget, hcond, hs, hr,
          List.filter_append, Effect.isReload, Effect.isNavigate, List.filter]
    · rintro ⟨hs, hr⟩
      constructor <;>
      simp [handleRemoveCoupon, handleRemoveCoupon.onData, settle, hrb, hget, hcond, hs, hr,
        List.filter_append, Effect.isReload, Effect.isNavigate, List.filter]
  · intro hs
    simp [removeFromWishlist, removeFromWishlist.onData, settle, hgets, hs, List.filter_append,
      Effect.isReload, List.filter]
  · intro hs
    constructor <;>
    simp [removeFromWishlist, removeFromWishlist.onData, settle, hgets, hs, List.filter_append,
      Effect.isReload, Effect.isAlert, List.filter]

/-- Claim C7, amended, at the response `{}` of the wishlist request. -/
theorem absent_fields_fallbacks_witness :
    (removeFromWishlist ⟨none, lit "csrftoken=abc"⟩ true (lit "7") (.json (.obj []))).filter
        Effect.isAlert
      = [.alert (jsOr ((JSVal.obj []).prop "message") (.str (lit "Failed to remove item.")))] :=
  ((absent_fields_fallbacks asciiUpperMapping ⟨true, true, none, 0⟩
    ⟨[("coupon_code", lit "save10")], lit "/cart/coupon/apply/", some (lit "Apply")⟩
    ⟨[], lit "/cart/coupon/remove/", some (lit "Remove")⟩
    ⟨none, lit "csrftoken=abc"⟩ (lit "7") (lit "Apply") (lit "Remove")
    (.obj []) rfl rfl rfl).2.2.2.2 (by decide)).2

/-- Claim C8 fails as stated: when the request of `validateCoupon` is rejected, the request was
issued once and nothing is written to the coupon message element. -/
theorem live_validation_failure_is_silent :
    (validateCoupon (fun s => some s) ⟨true, true, none, 0⟩ (lit "SAVE") .rejected).filter
        Effect.isMessage = [] ∧
    ((validateCoupon (fun s => some s) ⟨true, true, none, 0⟩ (lit "SAVE") .rejected).filter
        Effect.isFetch).length = 1 :=
  ⟨rfl, rfl⟩

/-- Claim C8, amended. When the request is rejected or its body is not JSON: `validateCoupon`
swallows the failure and writes no message; `handleCouponSubmit` and `handleRemoveCoupon`
write their generic error message into the coupon message element (present on the page);
`removeFromWishlist` shows its generic alert; each of them has issued exactly one request. -/
theorem request_failures_surface_once (upperMapping : Nat → List Nat)
    (encodeURIComponent : JSString → Option JSString) (page : Page)
    (form removeForm : CouponForm) (wishlist : WishlistPage) (productId code encoded b rb : JSString)
    (outcome : FetchOutcome)
    (hout : outcome = .rejected ∨ outcome = .invalidJson)
    (hb : form.submitButton = some b) (hrb : removeForm.submitButton = some rb)
    (hm : page.hasCouponMessage = true)
    (hcode : code.isEmpty = false) (henc : encodeURIComponent code = some encoded) :
    ((validateCoupon encodeURIComponent page code outcome).filter Effect.isMessage = []
      ∧ ((validateCoupon encodeURIComponent page code outcome).filter Effect.isFetch).length = 1) ∧
    ((handleCouponSubmit upperMapping page form outcome).filter Effect.isMessage
        = [.setMessageText (.str []),
           .setMessageClass (lit "mt-1 text-sm " ++ lit "text-green-600"),
           .setMessageText (.str (lit "An error occurred. Please try again.")),
           .setMessageClass (lit "mt-1 text-sm " ++ lit "text-red-600")]
      ∧ ((handleCouponSubmit upperMapping page form outcome).filter Effect.isFetch).length = 1) ∧
    ((handleRemoveCoupon page removeForm outcome).filter Effect.isMessage
        = [.setMessageText (.str (lit "Failed to remove coupon. Please try again.")),
           .setMessageClass (lit "mt-1 text-sm " ++ lit "text-red-600")]
      ∧ ((handleRemoveCoupon page removeForm outcome).filter Effect.isFetch).length = 1) ∧
    ((removeFromWishlist wishlist true productId outcome).filter Effect.isAlert
        = [.alert (.str (lit "An error occurred. Please try again."))]
      ∧ ((removeFromWishlist wishlist true productId outcome).filter Effect.isFetch).length = 1) := by
  have e1 := showCouponMessage_error page (lit "An error occurred. Please try again.") hm (by decide)
  have e2 := showCouponMessage_error page (lit "Failed to remove coupon. Please try again.") hm
    (by decide)
  have e3 := showCouponMessage_clear page hm
  rcases hout with rfl | rfl <;>
  refine ⟨⟨?_, ?_⟩, ⟨?_, ?_⟩, ⟨?_, ?_⟩, ⟨?_, ?_⟩⟩ <;>
  simp [validateCoupon, handleCouponSubmit, handleRemoveCoupon, removeFromWishlist, settle,
    hb, hrb, hcode, henc, e1, e2, e3, List.filter_append, List.filter,
    Effect.isMessage, Effect.isFetch, Effect.isAlert]

/-- Claim C8, amended, at a remove request whose body is not JSON. -/
theorem request_failures_surface_once_witness :
    (handleRemoveCoupon ⟨true, true, none, 0⟩
        ⟨[], lit "/cart/coupon/remove/", some (lit "Remove")⟩ .invalidJson).filter Effect.isMessage
      = [.setMessageText (.str (lit "Failed to remove coupon. Please try again.")),
         .setMessageClass (lit "mt-1 text-sm " ++ lit "text-red-600")] :=
  (request_failures_surface_once asciiUpperMapping (fun s => some s) ⟨true, true, none, 0⟩
    ⟨[("coupon_code", lit "save10")], lit "/cart/coupon/apply/", some (lit "Apply")⟩
    ⟨[], lit "/cart/coupon/remove/", some (lit "Remove")⟩
    ⟨none, lit "csrftoken=abc"⟩ (lit "7") (lit "SAVE") (lit "SAVE") (lit "Apply") (lit "Remove")
    .invalidJson (Or.inr rfl) rfl rfl rfl (by decide) rfl).2.2.1.1

/-! ### size-management.js: the badge -/

/-- The next element sibling is an element. -/
theorem nextElementSibling_isElement (after : List DomNode) (n : DomNode)
    (h : nextElementSibling after = some n) : n.isElement = true := by
  unfold nextElementSibling at h
  exact List.find?_some h

/-- Changing the first element of the siblings changes the next element sibling. -/
theorem nextElementSibling_mapFirstElement (f : DomNode → DomNode) (after : List DomNode)
    (n : DomNode) (hf : ∀ x, x.isElement = true → (f x).isElement = true)
    (h : nextElementSibling after = some n) :
    nextElementSibling (mapFirstElement f after) = some (f n) := by
  induction after with
  | nil => simp [nextElementSibling] at h
  | cons x rest ih =>
    unfold nextElementSibling at h ih ⊢
    by_cases hx : x.isElement = true
    · simp only [List.find?, hx] at h
      injection h with h
      subst h
      simp [mapFirstElement, hx, List.find?, hf x hx]
    · simp only [Bool.not_eq_true] at hx
      simp only [List.find?, hx] at h
      simp only [mapFirstElement, hx, Bool.false_eq_true, if_false, List.find?]
      exact ih h

/-- An updated badge is an element. -/
theorem updateBadge_isElement (m : Nat → List Nat) (sizeType : Option JSString) (x : DomNode)
    (hx : x.isElement = true) : (updateBadge m sizeType x).isElement = true := by
  cases x with
  | text d => simp [DomNode.isElement] at hx
  | element a cs =>
    unfold updateBadge
    split
    · split <;> simp [setDisplay, setTextContent, DomNode.isElement]
    · simp [setDisplay, DomNode.isElement]

/-- An updated badge keeps its class. -/
theorem updateBadge_isSizeTypeBadge (m : Nat → List Nat) (sizeType : Option JSString)
    (x : DomNode) (hx : isSizeTypeBadge x = true) :
    isSizeTypeBadge (updateBadge m sizeType x) = true := by
  cases x with
  | text d => simp [isSizeTypeBadge] at hx
  | element a cs =>
    unfold updateBadge
    split
    · split <;> simpa [setDisplay, setTextContent, isSizeTypeBadge] using hx
    · simpa [setDisplay, isSizeTypeBadge] using hx

/-- Without a size type, or with an empty one, the badge is hidden. -/
theorem updateBadge_hidden (m : Nat → List Nat) (sizeType : Option JSString) (x : DomNode)
    (hx : x.isElement = true) (hs : sizeType = none ∨ sizeType = some []) :
    (updateBadge m sizeType x).display = lit "none" := by
  cases x with
  | text d => simp [DomNode.isElement] at hx
  | element a cs =>
    rcases hs with rfl | rfl <;> simp [updateBadge, setDisplay, DomNode.display]

/-- The text set by the `textContent` setter is the text read back. -/
theorem textContentList_single (s : JSString) :
    textContentList (if s.isEmpty then [] else [DomNode.text s]) = s := by
  cases s with
  | nil => simp [textContentList]
  | cons c cs => simp [textContentList, DomNode.textContent]

/-- With a non-empty size type the badge is shown with the capitalised text. -/
theorem updateBadge_shown (m : Nat → List Nat) (s : JSString) (x : DomNode)
    (hx : x.isElement = true) (hs : s ≠ []) :
    (updateBadge m (some s) x).display = lit "inline-block" ∧
    (updateBadge m (some s) x).textContent = toUpperCase m (s.take 1) ++ s.drop 1 := by
  cases x with
  | text d => simp [DomNode.isElement] at hx
  | element a cs =>
    have he : s.isEmpty = false := by cases s <;> simp_all
    simp only [updateBadge, he, Bool.not_false, if_true, setTextContent, setDisplay,
      DomNode.display, DomNode.textContent, textContentList_single, capitalize, charAt0,
      and_self]

/-- Claim C6 fails as stated: a selected option whose `data-size-type` attribute is present with
the empty value gets a hidden badge (`display` is `none`), not a displayed one. -/
theorem empty_size_type_hides_badge :
    selectedOption
        (.element ⟨"select", lit "id_form-0-size", [], none, 0, []⟩
          [.element ⟨"option", [], [], some [], -1, []⟩ [.text (lit "---------")]])
      = some (.element ⟨"option", [], [], some [], -1, []⟩ [.text (lit "---------")]) ∧
    DomNode.getSizeType (.element ⟨"option", [], [], some [], -1, []⟩ [.text (lit "---------")])
      = some [] ∧
    (updateSizeTypeBadge asciiUpperMapping
        (.element ⟨"select", lit "id_form-0-size", [], none, 0, []⟩
          [.element ⟨"option", [], [], some [], -1, []⟩ [.text (lit "---------")]]) []).map
        (fun after => (nextElementSibling after).map DomNode.display)
      = some (some (lit "none")) :=
  ⟨rfl, rfl, rfl⟩

/-- Claim C6, amended. For a select with a selected option, `updateSizeTypeBadge` returns and
leaves a badge (class `size-type-badge`) as the next element sibling of the select; the badge
has `display` `none` when the option has no `data-size-type` attribute or an empty one, and
for a non-empty value `s` it has `display` `inline-block` and text equal to the first code unit
of `s` upper-cased followed by the rest of `s`. -/
theorem badge_reflects_size_type (upperMapping : Nat → List Nat) (select option : DomNode)
    (after : List DomNode) (hsel : selectedOption select = some option) :
    ∃ result badge,
      updateSizeTypeBadge upperMapping select after = some result ∧
      nextElementSibling result = some badge ∧
      isSizeTypeBadge badge = true ∧
      (option.getSizeType = none ∨ option.getSizeType = some [] →
        badge.display = lit "none") ∧
      (∀ s, option.getSizeType = some s → s ≠ [] →
        badge.display = lit "inline-block" ∧
        badge.textContent = toUpperCase upperMapping (s.take 1) ++ s.drop 1) := by
  have hnew : newBadge.isElement = true := rfl
  have hnewBadge : isSizeTypeBadge newBadge = true := by decide
  have fresh : ∀ rest : List DomNode,
      nextElementSibling (updateBadge upperMapping option.getSizeType newBadge :: rest)
        = some (updateBadge upperMapping option.getSizeType newBadge) := by
    intro rest
    simp [nextElementSibling, List.find?, updateBadge_isElement _ _ _ hnew]
  have props : ∀ x : DomNode, x.isElement = true → isSizeTypeBadge x = true →
      isSizeTypeBadge (updateBadge upperMapping option.getSizeType x) = true ∧
      (option.getSizeType = none ∨ option.getSizeType = some [] →
        (updateBadge upperMapping option.getSizeType x).display = lit "none") ∧
      (∀ s, option.getSizeType = some s → s ≠ [] →
        (updateBadge upperMapping option.getSizeType x).display = lit "inline-block" ∧
        (updateBadge upperMapping option.getSizeType x).textContent
          = toUpperCase upperMapping (s.take 1) ++ s.drop 1) := by
    intro x hx hb
    refine ⟨updateBadge_isSizeTypeBadge _ _ _ hb, updateBadge_hidden _ _ _ hx, ?_⟩
    intro s hs hne
    rw [hs]
    exact updateBadge_shown _ s x hx hne
  unfold updateSizeTypeBadge
  simp only [hsel]
  cases hnext : nextElementSibling after with
  | none =>
    exact ⟨_, _, rfl, fresh after, props newBadge hnew hnewBadge⟩
  | some old =>
    by_cases hold : isSizeTypeBadge old = true
    · have holdElement := nextElementSibling_isElement after old hnext
      refine ⟨mapFirstElement (updateBadge upperMapping option.getSizeType) after,
        updateBadge upperMapping option.getSizeType old, by simp [hold], ?_,
        props old holdElement hold⟩
      exact nextElementSibling_mapFirstElement _ after old
        (fun x hx => updateBadge_isElement _ _ x hx) hnext
    · simp only [Bool.not_eq_true] at hold
      exact ⟨updateBadge upperMapping option.getSizeType newBadge :: after,
        updateBadge upperMapping option.getSizeType newBadge, by simp [hold], fresh after,
        props newBadge hnew hnewBadge⟩

/-- Claim C6, amended, at a select whose selected option has `data-size-type="clothing"`. -/
theorem badge_reflects_size_type_witness :
    ∃ result badge,
      updateSizeTypeBadge asciiUpperMapping
          (.element ⟨"select", lit "id_form-0-size", [], none, 0, []⟩
            [.element ⟨"option", [], [], some (lit "clothing"), -1, []⟩ [.text (lit "M")]])
          [.text (lit " ")] = some result ∧
      nextElementSibling result = some badge ∧
      isSizeTypeBadge badge = true ∧
      (DomNode.getSizeType (.element ⟨"option", [], [], some (lit "clothing"), -1, []⟩
            [.text (lit "M")]) = none ∨
          DomNode.getSizeType (.element ⟨"option", [], [], some (lit "clothing"), -1, []⟩
            [.text (lit "M")]) = some [] →
        badge.display = lit "none") ∧
      (∀ s, DomNode.getSizeType (.element ⟨"option", [], [], some (lit "clothing"), -1, []⟩
            [.text (lit "M")]) = some s → s ≠ [] →
        badge.display = lit "inline-block" ∧
        badge.textContent = toUpperCase asciiUpperMapping (s.take 1) ++ s.drop 1) :=
  badge_reflects_size_type asciiUpperMapping
    (.element ⟨"select", lit "id_form-0-size", [], none, 0, []⟩
      [.element ⟨"option", [], [], some (lit "clothing"), -1, []⟩ [.text (lit "M")]])
    (.element ⟨"option", [], [], some (lit "clothing"), -1, []⟩ [.text (lit "M")])
    [.text (lit " ")] rfl

/-- The badge of a select whose selected option has `data-size-type="clothing"` shows `Clothing`. -/
theorem updateSizeTypeBadge_example :
    (updateSizeTypeBadge asciiUpperMapping
        (.element ⟨"select", lit "id_form-0-size", [], none, 0, []⟩
          [.element ⟨"option", [], [], some (lit "clothing"), -1, []⟩ [.text (lit "M")]])
        [.text (lit " ")]).map
        (fun after => (nextElementSibling after).map
          (fun badge => (badge.display, badge.textContent)))
      = some (some (lit "inline-block", lit "Clothing")) := rfl

/-! ### size-management.js: the mutation observer -/

/-- A node of a list is among the nodes the traversal of the list visits. -/
theorem mem_descendantsList_of_mem (cs : List DomNode) (c : DomNode) (h : c ∈ cs) :
    c ∈ descendantsList cs := by
  induction cs with
  | nil => simp at h
  | cons x rest ih =>
    rcases List.mem_cons.mp h with rfl | h
    · simp [descendantsList]
    · simp [descendantsList, ih h]

/-- A descendant of a node of a list is among the nodes the traversal of the list visits. -/
theorem mem_descendantsList_of_descendant (cs : List DomNode) (c d : DomNode) (h : c ∈ cs)
    (hd : d ∈ c.descendants) : d ∈ descendantsList cs := by
  induction cs with
  | nil => simp at h
  | cons x rest ih =>
    rcases List.mem_cons.mp h with rfl | h
    · simp [descendantsList, hd]
    · simp [descendantsList, ih h]

/-- The traversal visits every node that lies inside. -/
theorem mem_descendants_of_contains (n s : DomNode) (h : Contains n s) : s ∈ n.descendants := by
  induction h with
  | child a cs c hc =>
    simpa [DomNode.descendants] using mem_descendantsList_of_mem cs c hc
  | deeper a cs c d hc _ ih =>
    simpa [DomNode.descendants] using mem_descendantsList_of_descendant cs c d hc ih

mutual
/-- The traversal of a node visits only nodes that lie inside it. -/
theorem contains_of_mem_descendants : ∀ (n s : DomNode), s ∈ n.descendants → Contains n s
  | .text _, s, h => by simp [DomNode.descendants] at h
  | .element a cs, s, h => by
    simp only [DomNode.descendants] at h
    obtain ⟨c, hc, hs⟩ := contains_of_mem_descendantsList cs s h
    rcases hs with rfl | hs
    · exact Contains.child a cs s hc
    · exact Contains.deeper a cs c s hc hs
/-- The traversal of a list visits only its nodes and the nodes inside them. -/
theorem contains_of_mem_descendantsList : ∀ (cs : List DomNode) (s : DomNode),
    s ∈ descendantsList cs → ∃ c ∈ cs, s = c ∨ Contains c s
  | [], s, h => by simp [descendantsList] at h
  | c :: rest, s, h => by
    simp only [descendantsList, List.mem_cons, List.mem_append] at h
    rcases h with rfl | h | h
    · exact ⟨s, List.mem_cons_self _ _, Or.inl rfl⟩
    · exact ⟨c, List.mem_cons_self _ _, Or.inr (contains_of_mem_descendants c s h)⟩
    · obtain ⟨d, hd, hs⟩ := contains_of_mem_descendantsList rest s h
      exact ⟨d, List.mem_cons_of_mem _ hd, hs⟩
end

/-- The call `querySelectorAll` returns the matching nodes that lie inside, and only them. -/
theorem mem_querySelectorAll (n s : DomNode) :
    s ∈ querySelectorAll n ↔ Contains n s ∧ matchesSizeSelect s = true := by
  unfold querySelectorAll
  rw [List.mem_filter]
  exact ⟨fun h => ⟨contains_of_mem_descendants n s h.1, h.2⟩,
    fun h => ⟨mem_descendants_of_contains n s h.1, h.2⟩⟩

/-- A loop whose callback never throws runs it on every item. -/
theorem forEach_of_no_throw {α : Type} (f : α → Run) (l : List α)
    (h : ∀ x ∈ l, (f x).threw = false) :
    (forEach f l).threw = false ∧ (forEach f l).done = l.flatMap (fun x => (f x).done) := by
  induction l with
  | nil => simp [forEach]
  | cons x rest ih =>
    have hx := h x (List.mem_cons_self _ _)
    have hrest := ih (fun y hy => h y (List.mem_cons_of_mem _ hy))
    simp [forEach, hx, hrest.1, hrest.2]

/-- In a loop whose callback never throws, what the callback does on an item is done. -/
theorem forEach_mem {α : Type} (f : α → Run) (l : List α)
    (h : ∀ x ∈ l, (f x).threw = false) (x : α) (hx : x ∈ l) (a : Attach)
    (ha : a ∈ (f x).done) : a ∈ (forEach f l).done := by
  rw [(forEach_of_no_throw f l h).2]
  exact List.mem_flatMap.mpr ⟨x, hx, ha⟩

/-- On a select with a selected option the body updates the badge and adds the listener. -/
theorem attachBadge_of_selected (s : DomNode) (h : (selectedOption s).isSome = true) :
    (attachBadge s).threw = false ∧
    (attachBadge s).done = [.updateSizeTypeBadge s, .addChangeListener s] := by
  unfold attachBadge
  cases hs : selectedOption s with
  | none => simp [hs] at h
  | some o => simp

/-- A loop over selects that all have a selected option attaches the badge to each. -/
theorem forEach_attachBadge (selects : List DomNode)
    (h : ∀ s ∈ selects, (selectedOption s).isSome = true) :
    (forEach attachBadge selects).threw = false ∧
    ∀ s ∈ selects, Attach.updateSizeTypeBadge s ∈ (forEach attachBadge selects).done ∧
      Attach.addChangeListener s ∈ (forEach attachBadge selects).done := by
  have hno := forEach_of_no_throw attachBadge selects
    (fun s hs => (attachBadge_of_selected s (h s hs)).1)
  refine ⟨hno.1, fun s hs => ?_⟩
  rw [hno.2]
  simp only [List.mem_flatMap]
  exact ⟨⟨s, hs, by simp [(attachBadge_of_selected s (h s hs)).2]⟩,
    ⟨s, hs, by simp [(attachBadge_of_selected s (h s hs)).2]⟩⟩

/-- Only elements contain nodes. -/
theorem contains_isElement (n s : DomNode) (h : Contains n s) : n.isElement = true := by
  cases h <;> rfl

/-- Claim C9 fails as stated: on a document whose load handler started the observer, a batch
whose added node is itself a select with id ending in `-size` (with an option selected) makes
the observer callback run and do nothing to that select. -/
theorem inserted_select_itself_is_skipped :
    matchesSizeSelect
        (.element ⟨"select", lit "id_form-1-size", [], none, 0, []⟩
          [.element ⟨"option", [], [], some (lit "clothing"), -1, []⟩ [.text (lit "M")]]) = true ∧
    (selectedOption
        (.element ⟨"select", lit "id_form-1-size", [], none, 0, []⟩
          [.element ⟨"option", [], [], some (lit "clothing"), -1, []⟩ [.text (lit "M")]])).isSome
      = true ∧
    sizeManagement []
        [[⟨[.element ⟨"select", lit "id_form-1-size", [], none, 0, []⟩
            [.element ⟨"option", [], [], some (lit "clothing"), -1, []⟩ [.text (lit "M")]]]⟩]]
      = [⟨[.observe], false⟩, ⟨[], false⟩] :=
  ⟨rfl, rfl, rfl⟩

/-- One run of the observer callback: when every size select inside the added nodes has a
selected option, the callback ends without exception and attaches the badge to every size
select that an added node contains, as the load handler does to a size select of the
document. -/
theorem observerCallback_attaches (mutations : List MutationRecord)
    (hsel : ∀ m ∈ mutations, ∀ node ∈ m.addedNodes, ∀ s, Contains node s →
      matchesSizeSelect s = true → (selectedOption s).isSome = true) :
    (observerCallback mutations).threw = false ∧
    ∀ m ∈ mutations, ∀ node ∈ m.addedNodes, ∀ s, Contains node s →
      matchesSizeSelect s = true →
        Attach.updateSizeTypeBadge s ∈ (observerCallback mutations).done ∧
        Attach.addChangeListener s ∈ (observerCallback mutations).done ∧
        ∀ documentChildren : List DomNode,
          (∀ t ∈ (descendantsList documentChildren).filter matchesSizeSelect,
            (selectedOption t).isSome = true) →
          s ∈ descendantsList documentChildren →
            Attach.updateSizeTypeBadge s ∈ (onContentLoaded documentChildren).done ∧
            Attach.addChangeListener s ∈ (onContentLoaded documentChildren).done := by
  have hnode : ∀ m ∈ mutations, ∀ node ∈ m.addedNodes,
      (if node.isElement then forEach attachBadge (querySelectorAll node) else ⟨[], false⟩ : Run).threw
        = false := by
    intro m hm node hn
    split
    · exact (forEach_attachBadge _ (fun s hs =>
        hsel m hm node hn s ((mem_querySelectorAll node s).mp hs).1
          ((mem_querySelectorAll node s).mp hs).2)).1
    · rfl
  have hmut : ∀ m ∈ mutations,
      (if m.addedNodes.length != 0 then
        forEach (fun node =>
          if node.isElement then forEach attachBadge (querySelectorAll node)
          else ⟨[], false⟩) m.addedNodes
      else ⟨[], false⟩ : Run).threw = false := by
    intro m hm
    split
    · exact (forEach_of_no_throw _ _ (hnode m hm)).1
    · rfl
  unfold observerCallback
  refine ⟨(forEach_of_no_throw _ _ hmut).1, ?_⟩
  intro m hm node hn s hc hs
  have hlen : (m.addedNodes.length != 0) = true := by
    cases hnodes : m.addedNodes with
    | nil => rw [hnodes] at hn; simp at hn
    | cons x rest => simp
  have helem := contains_isElement node s hc
  have hin := (forEach_attachBadge (querySelectorAll node) (fun t ht =>
    hsel m hm node hn t ((mem_querySelectorAll node t).mp ht).1
      ((mem_querySelectorAll node t).mp ht).2)).2 s ((mem_querySelectorAll node s).mpr ⟨hc, hs⟩)
  have lift : ∀ a : Attach, a ∈ (forEach attachBadge (querySelectorAll node)).done →
      a ∈ (forEach (fun mutation : MutationRecord =>
        if mutation.addedNodes.length != 0 then
          forEach (fun node =>
            if node.isElement then forEach attachBadge (querySelectorAll node)
            else ⟨[], false⟩) mutation.addedNodes
        else ⟨[], false⟩) mutations).done := by
    intro a ha
    refine forEach_mem _ _ hmut m hm a ?_
    simp only [hlen, if_true]
    refine forEach_mem _ _ (hnode m hm) node hn a ?_
    simpa [helem] using ha
  refine ⟨lift _ hin.1, lift _ hin.2, ?_⟩
  intro documentChildren hdoc hmem
  have hload := forEach_attachBadge _ hdoc
  have hs2 := hload.2 s (List.mem_filter.mpr ⟨hmem, hs⟩)
  unfold onContentLoaded
  simp only [hload.1, Bool.false_eq_true, if_false, List.mem_append]
  exact ⟨Or.inl hs2.1, Or.inl hs2.2⟩

/-- Claim C9, amended. When every size select of the document at load has a selected option,
the load handler attaches the badge to each of them and starts the observer, so that the
callback runs on every batch of mutations delivered afterwards; and on a batch in which every
size select inside the added nodes has a selected option, the callback ends without exception
and, for every added node and every select with id ending in `-size` that the node contains as
a descendant, applies `updateSizeTypeBadge` to the select and adds a `change` listener to it,
as the load handler did to the selects of the document. -/
theorem observer_attaches_to_contained_selects (documentChildren : List DomNode)
    (batches : List (List MutationRecord)) (mutations : List MutationRecord)
    (hload : ∀ t ∈ (descendantsList documentChildren).filter matchesSizeSelect,
      (selectedOption t).isSome = true)
    (hbatch : mutations ∈ batches)
    (hsel : ∀ m ∈ mutations, ∀ node ∈ m.addedNodes, ∀ s, Contains node s →
      matchesSizeSelect s = true → (selectedOption s).isSome = true) :
    sizeManagement documentChildren batches
      = onContentLoaded documentChildren :: batches.map observerCallback ∧
    Attach.observe ∈ (onContentLoaded documentChildren).done ∧
    (∀ s ∈ (descendantsList documentChildren).filter matchesSizeSelect,
      Attach.updateSizeTypeBadge s ∈ (onContentLoaded documentChildren).done ∧
      Attach.addChangeListener s ∈ (onContentLoaded documentChildren).done) ∧
    observerCallback mutations ∈ sizeManagement documentChildren batches ∧
    (observerCallback mutations).threw = false ∧
    (∀ m ∈ mutations, ∀ node ∈ m.addedNodes, ∀ s, Contains node s →
      matchesSizeSelect s = true →
        Attach.updateSizeTypeBadge s ∈ (observerCallback mutations).done ∧
        Attach.addChangeListener s ∈ (observerCallback mutations).done) := by
  have hfirst := forEach_attachBadge _ hload
  have hloadRun : (onContentLoaded documentChildren).threw = false := by
    simp [onContentLoaded, hfirst.1]
  have hdone : (onContentLoaded documentChildren).done
      = (forEach attachBadge ((descendantsList documentChildren).filter matchesSizeSelect)).done
        ++ [.observe] := by
    simp [onContentLoaded, hfirst.1]
  have hscript : sizeManagement documentChildren batches
      = onContentLoaded documentChildren :: batches.map observerCallback := by
    simp [sizeManagement, hloadRun]
  have hcallback := observerCallback_attaches mutations hsel
  refine ⟨hscript, ?_, ?_, ?_, hcallback.1, ?_⟩
  · rw [hdone]
    simp
  · intro s hs
    rw [hdone]
    exact ⟨List.mem_append_left _ (hfirst.2 s hs).1, List.mem_append_left _ (hfirst.2 s hs).2⟩
  · rw [hscript]
    exact List.mem_cons_of_mem _ (List.mem_map.mpr ⟨mutations, hbatch, rfl⟩)
  · intro m hm node hn s hc hs
    exact ⟨(hcallback.2 m hm node hn s hc hs).1, (hcallback.2 m hm node hn s hc hs).2.1⟩

/-- Claim C9, amended, on a document with one size select at load, at a batch that adds a `div`
containing a size select. -/
theorem observer_attaches_to_contained_selects_witness :
    sizeManagement
        [.element ⟨"select", lit "id_form-0-size", [], none, 0, []⟩
          [.element ⟨"option", [], [], some (lit "shoes"), -1, []⟩ [.text (lit "42")]]]
        [[⟨[.element ⟨"div", [], [], none, -1, []⟩
            [.element ⟨"select", lit "id_form-1-size", [], none, 0, []⟩
              [.element ⟨"option", [], [], some (lit "clothing"), -1, []⟩ [.text (lit "M")]]]]⟩]]
      = [⟨[.updateSizeTypeBadge
            (.element ⟨"select", lit "id_form-0-size", [], none, 0, []⟩
              [.element ⟨"option", [], [], some (lit "shoes"), -1, []⟩ [.text (lit "42")]]),
           .addChangeListener
            (.element ⟨"select", lit "id_form-0-size", [], none, 0, []⟩
              [.element ⟨"option", [], [], some (lit "shoes"), -1, []⟩ [.text (lit "42")]]),
           .observe], false⟩,
         ⟨[.updateSizeTypeBadge
            (.element ⟨"select", lit "id_form-1-size", [], none, 0, []⟩
              [.element ⟨"option", [], [], some (lit "clothing"), -1, []⟩ [.text (lit "M")]]),
           .addChangeListener
            (.element ⟨"select", lit "id_form-1-size", [], none, 0, []⟩
              [.element ⟨"option", [], [], some (lit "clothing"), -1, []⟩ [.text (lit "M")]])],
          false⟩] ∧
    (observerCallback
        [⟨[.element ⟨"div", [], [], none, -1, []⟩
            [.element ⟨"select", lit "id_form-1-size", [], none, 0, []⟩
              [.element ⟨"option", [], [], some (lit "clothing"), -1, []⟩ [.text (lit "M")]]]]⟩]).threw
      = false :=
  ⟨rfl,
    (observer_attaches_to_contained_selects
      [.element ⟨"select", lit "id_form-0-size", [], none, 0, []⟩
        [.element ⟨"option", [], [], some (lit "shoes"), -1, []⟩ [.text (lit "42")]]]
      [[⟨[.element ⟨"div", [], [], none, -1, []⟩
          [.element ⟨"select", lit "id_form-1-size", [], none, 0, []⟩
            [.element ⟨"option", [], [], some (lit "clothing"), -1, []⟩ [.text (lit "M")]]]]⟩]]
      [⟨[.element ⟨"div", [], [], none, -1, []⟩
          [.element ⟨"select", lit "id_form-1-size", [], none, 0, []⟩
            [.element ⟨"option", [], [], some (lit "clothing"), -1, []⟩ [.text (lit "M")]]]]⟩]
      (by
        intro t ht
        have hall : (descendantsList
            [DomNode.element ⟨"select", lit "id_form-0-size", [], none, 0, []⟩
              [.element ⟨"option", [], [], some (lit "shoes"), -1, []⟩
                [.text (lit "42")]]]).filter matchesSizeSelect
            = [.element ⟨"select", lit "id_form-0-size", [], none, 0, []⟩
                [.element ⟨"option", [], [], some (lit "shoes"), -1, []⟩ [.text (lit "42")]]] :=
          rfl
        rw [hall, List.mem_singleton] at ht
        subst ht
        rfl)
      (List.mem_singleton.mpr rfl)
      (by
        intro m hm node hn s hc hs
        simp only [List.mem_singleton] at hm
        subst hm
        simp only [List.mem_singleton] at hn
        subst hn
        have hq := (mem_querySelectorAll _ s).mpr ⟨hc, hs⟩
        have hall : querySelectorAll
            (.element ⟨"div", [], [], none, -1, []⟩
              [.element ⟨"select", lit "id_form-1-size", [], none, 0, []⟩
                [.element ⟨"option", [], [], some (lit "clothing"), -1, []⟩ [.text (lit "M")]]])
            = [.element ⟨"select", lit "id_form-1-size", [], none, 0, []⟩
                [.element ⟨"option", [], [], some (lit "clothing"), -1, []⟩ [.text (lit "M")]]] :=
          rfl
        rw [hall, List.mem_singleton] at hq
        subst hq
        rfl)).2.2.2.2.1⟩

/-- The load handler ended by an exception starts no observer: on a document whose first size
select has no option, `updateSizeTypeBadge` throws, no select gets a badge or a listener, and
a row with a size select that is added later is delivered to nobody. -/
theorem aborted_load_leaves_no_observer :
    sizeManagement
        [.element ⟨"div", [], [], none, -1, []⟩
          [.element ⟨"select", lit "a-size", [], none, -1, []⟩ []],
         .element ⟨"div", [], [], none, -1, []⟩
          [.element ⟨"select", lit "b-size", [], none, 0, []⟩
            [.element ⟨"option", [], [], some (lit "clothing"), -1, []⟩ [.text (lit "M")]]]]
        [[⟨[.element ⟨"div", [], [], none, -1, []⟩
            [.element ⟨"select", lit "c-size", [], none, 0, []⟩
              [.element ⟨"option", [], [], some (lit "clothing"), -1, []⟩ [.text (lit "M")]]]]⟩]]
      = [⟨[], true⟩] :=
  rfl

end Storefront
